import Mathlib

/-!
# Mini-OS POSIX layer (`lib/sys.c`)

A shallow embedding of the descriptor table, the per-kind dispatch of
`read`/`write`/`lseek`/`fstat`/`fsync`/`ftruncate`/`close`, `dup2`,
`close_all_files`, the directory cursor (`opendir`/`readdir`), the `select`
engine, `mmap`/`munmap` and `clock_gettime` of `lib/sys.c`, followed by
theorems about them.

Conventions of the embedding.

* The global `files[NOFILE]` is a function `Fin NOFILE → file`; a descriptor
  is a `Fin NOFILE`, because `files[fd]` with `fd` outside `0 .. NOFILE-1` is
  undefined behaviour in C and no function of the file checks the range.
* A C function that returns `int` and may set `errno` returns a pair of the
  returned value and the new `State` (table and `errno`).
* Signed C integers (`int`, `ssize_t`, `off_t`, `s_time_t`) are `Int`, sizes
  (`size_t`) are `Nat`. Signed overflow is undefined in C; nothing below
  relies on it. Where the source stores or returns a wider value as an `int`
  (the value returned by `read` and `write`, the counts `n` of `read` and
  `munmap`), the conversion is `to_int`. The unsigned sum in `mmap` wraps
  modulo `2 ^ bits`, with the width `bits` of the machine word a parameter.
* Code outside `lib/sys.c` (file-system import, lwIP, the front-ends, the
  scheduler) is a parameter: a record of functions giving what each call
  returns. Buffers' contents are not modelled.
* `do_exit()` and undefined behaviour make a function return `none`.
-/

namespace MiniOS

/-! ## Constants of the missing headers -/

/-- The capacity of the descriptor table, `#define NOFILE 32`. -/
def NOFILE : Nat := 32

/-- Modelled from the spec: the page size of the missing architecture header
(`PAGE_SIZE`), 4096 bytes. -/
def PAGE_SIZE : Nat := 4096

/-- Modelled from the spec: the error code "interrupted" of the missing
`errno.h`. -/
def EINTR : Int := 4

/-- Modelled from the spec: the error code "I/O error" of the missing
`errno.h`. -/
def EIO : Int := 5

/-- Modelled from the spec: the error code "bad descriptor" of the missing
`errno.h`. -/
def EBADF : Int := 9

/-- Modelled from the spec: the error code "would block" of the missing
`errno.h`. -/
def EAGAIN : Int := 11

/-- Modelled from the spec: the error code "invalid argument" of the missing
`errno.h`. -/
def EINVAL : Int := 22

/-- Modelled from the spec: the error code that `lseek` reports for a
descriptor that is not a plain file (`ESPIPE` of the missing `errno.h`). -/
def ESPIPE : Int := 29

/-- Modelled from the spec: `SEEK_SET` of the missing `unistd.h`. -/
def SEEK_SET : Int := 0

/-- Modelled from the spec: `SEEK_CUR` of the missing `unistd.h`. -/
def SEEK_CUR : Int := 1

/-- Modelled from the spec: `SEEK_END` of the missing `unistd.h`. -/
def SEEK_END : Int := 2

/-- Modelled from the spec: `S_IFCHR | S_IRUSR | S_IWUSR` of the missing
`sys/stat.h`, the synthetic mode of a console descriptor. -/
def S_IFCHR_RW : Int := 0o20000 + 0o400 + 0o200

/-- Modelled from the spec: `S_IFSOCK | S_IRUSR | S_IWUSR` of the missing
`sys/stat.h`, the synthetic mode of a socket descriptor. -/
def S_IFSOCK_RW : Int := 0o140000 + 0o400 + 0o200

/-- Modelled from the spec: `sizeof(union xenkbd_in_event)` of the missing
keyboard protocol header. -/
def XENKBD_IN_EVENT_SIZE : Nat := 40

/-- The conversion of a wider integer to `int`: the value modulo `2 ^ 32`, in
two's complement (what the compilers the kernel is built with do; the C
standard leaves it to the implementation). -/
def to_int (x : Int) : Int := (x + 2147483648) % 4294967296 - 2147483648

/-! ## Data model -/

/-- Modelled from the spec: `enum fd_type` of the missing header, the kind
tag of a slot (empty, console, plain-file, configuration-store,
event-channel, socket, network-tap, block-device, keyboard-device), in the
order of the `file_types` table of `lib/sys.c`. -/
inductive fd_type where
  | FTYPE_NONE
  | FTYPE_CONSOLE
  | FTYPE_FILE
  | FTYPE_XENBUS
  | FTYPE_EVTCHN
  | FTYPE_SOCKET
  | FTYPE_TAP
  | FTYPE_BLK
  | FTYPE_KBD
  deriving DecidableEq

open fd_type

/-- Modelled from the spec: `struct file` of the missing header. The kind
tag, then the payload members that `lib/sys.c` reads or writes
(`file.fd`, `file.offset`, `socket.fd`, `tap.dev`, `blk.dev`, `kbd.dev`,
`xenbus.events` as "a watch event is pending") and the pending-event flag
`read`. The C union is a record of all members: a member is only read under
its own kind tag. -/
structure file where
  type : fd_type
  file_fd : Int
  file_offset : Int
  socket_fd : Nat
  tap_dev : Nat
  blk_dev : Nat
  kbd_dev : Nat
  xenbus_events : Bool
  read : Bool
  deriving DecidableEq

/-- The descriptor table `files[NOFILE]`. -/
abbrev Table := Fin NOFILE → file

/-- The mutable globals of `lib/sys.c`: the table and `errno`. -/
structure State where
  files : Table
  errno : Int

/-- A zero-initialised slot: kind `FTYPE_NONE`, every member zero. -/
def file_zero : file :=
  { type := FTYPE_NONE, file_fd := 0, file_offset := 0, socket_fd := 0,
    tap_dev := 0, blk_dev := 0, kbd_dev := 0, xenbus_events := false,
    read := false }

/-- The initialiser of `files`: slots 0, 1, 2 (stdin, stdout, stderr) are
consoles, every other slot is zero. -/
def files_init : Table := fun i =>
  if i.val < 3 then { file_zero with type := FTYPE_CONSOLE } else file_zero

/-- The state at start: the initial table and `errno = 0`. -/
def state_init : State := { files := files_init, errno := 0 }

/-- Modelled from the spec: `struct fsif_stat_response` of the missing
file-system protocol header, the fields `stat_from_fs` copies. -/
structure fsif_stat_response where
  stat_mode : Int
  stat_uid : Int
  stat_gid : Int
  stat_size : Int
  stat_atime : Int
  stat_mtime : Int
  stat_ctime : Int
  deriving DecidableEq

/-- Modelled from the spec: `struct stat` of the missing `sys/stat.h`, the
fields `init_stat`, `stat_from_fs` and `fstat` write. -/
structure stat where
  st_dev : Int
  st_ino : Int
  st_nlink : Int
  st_rdev : Int
  st_blksize : Int
  st_blocks : Int
  st_mode : Int
  st_uid : Int
  st_gid : Int
  st_size : Int
  st_atime : Int
  st_mtime : Int
  st_ctime : Int
  deriving DecidableEq

/-- Modelled from the spec: `fd_set` of the missing header, a set of
descriptor numbers, as its membership test. -/
abbrev fd_set := Nat → Bool

/-- Modelled from the spec: the macro `FD_ZERO`, the empty set. -/
def FD_ZERO : fd_set := fun _ => false

/-- Modelled from the spec: the macro `FD_SET(i, set)`. -/
def FD_SET (i : Nat) (set : fd_set) : fd_set := Function.update set i true

/-- Modelled from the spec: the macro `FD_CLR(i, set)`. -/
def FD_CLR (i : Nat) (set : fd_set) : fd_set := Function.update set i false

/-- Modelled from the spec: the macro `FD_ISSET(i, set)`. -/
def FD_ISSET (i : Nat) (set : fd_set) : Bool := set i

/-- What one call of `lwip_select` hands back: the returned count, the three
socket-level sets as the stack left them, and the `errno` it leaves. -/
structure lwip_select_result where
  sock_n : Int
  readfds : fd_set
  writefds : fd_set
  exceptfds : fd_set
  errno : Int

/-- The collaborators of `lib/sys.c` that the descriptor operations call:
what each call returns, as a function of its arguments. The lwIP calls
return their value and the `errno` they leave. -/
structure Backend where
  fs_read : Int → Nat → Int → Int
  fs_write : Int → Nat → Int → Int
  fs_close : Int → Int
  fs_sync : Int → Int
  fs_truncate : Int → Int → Int
  fs_stat : Int → Int × fsif_stat_response
  lwip_read : Nat → Nat → Int → Int × Int
  lwip_write : Nat → Nat → Int → Int × Int
  lwip_close : Nat → Int → Int × Int
  netfront_receive : Nat → Nat → Int
  kbdfront_receive : Nat → Int → Int
  lwip_select : Nat → fd_set → fd_set → fd_set → Int → lwip_select_result
  time : Int

/-- The assignment `files[fd].type = type`. -/
def set_type (files : Table) (fd : Fin NOFILE) (type : fd_type) : Table :=
  Function.update files fd { files fd with type := type }

/-- The assignment `files[fd].file.offset = offset`. -/
def set_offset (files : Table) (fd : Fin NOFILE) (offset : Int) : Table :=
  Function.update files fd { files fd with file_offset := offset }

/-- Modelled from the spec: `xs_daemon_close` of the missing `lib/xs.c`, the
teardown that `close` hands a configuration-store descriptor to. The spec
says of `close` "backend-kind-specific teardown, then the slot kind is reset
to empty"; `close` in `lib/sys.c` returns right after this call, so for this
kind the reset is the teardown's. The release of the watch queue is not
modelled. -/
def xs_daemon_close (files : Table) (fd : Fin NOFILE) : Table :=
  set_type files fd FTYPE_NONE

/-- Modelled from the spec: `xc_evtchn_close`, declared `extern` in
`lib/sys.c` and defined outside it, the teardown that `close` hands an
event-channel descriptor to. The spec says of `close` "backend-kind-specific
teardown, then the slot kind is reset to empty"; `close` in `lib/sys.c`
returns right after this call, so for this kind the reset is the teardown's.
The unbinding of the ports is not modelled. -/
def xc_evtchn_close (files : Table) (fd : Fin NOFILE) : Table :=
  set_type files fd FTYPE_NONE

/-! ## Descriptor table -/

/-- The loop of `alloc_fd`, `for (i = ...; i < NOFILE; i++)`, from index `i`
with `fuel` iterations allowed: the first slot of kind `FTYPE_NONE` gets the
kind `type` and its index is returned; `none` when the loop runs to its end
(`do_exit()`). -/
def alloc_fd_loop (type : fd_type) (files : Table) :
    Nat → Nat → Option (Fin NOFILE × Table)
  | 0, _ => none
  | fuel + 1, i =>
    if h : i < NOFILE then
      if (files ⟨i, h⟩).type = FTYPE_NONE then
        some (⟨i, h⟩, set_type files ⟨i, h⟩ type)
      else
        alloc_fd_loop type files fuel (i + 1)
    else
      none

/-- The function `alloc_fd(type)`; `none` is "Too many opened files" and
`do_exit()`. -/
def alloc_fd (type : fd_type) (s : State) : Option (Fin NOFILE × State) :=
  match alloc_fd_loop type s.files NOFILE 0 with
  | some (i, files) => some (i, { s with files := files })
  | none => none

/-- The function `close(fd)`. -/
def close (be : Backend) (s : State) (fd : Fin NOFILE) : Int × State :=
  match (s.files fd).type with
  | FTYPE_CONSOLE => (0, { s with files := set_type s.files fd FTYPE_NONE })
  | FTYPE_FILE =>
    let ret := be.fs_close (s.files fd).file_fd
    let files := set_type s.files fd FTYPE_NONE
    if ret < 0 then (-1, { files := files, errno := EIO })
    else (0, { s with files := files })
  | FTYPE_XENBUS => (0, { s with files := xs_daemon_close s.files fd })
  | FTYPE_SOCKET =>
    let res := be.lwip_close (s.files fd).socket_fd s.errno
    (res.1, { files := set_type s.files fd FTYPE_NONE, errno := res.2 })
  | FTYPE_EVTCHN => (0, { s with files := xc_evtchn_close s.files fd })
  | FTYPE_TAP => (0, { s with files := set_type s.files fd FTYPE_NONE })
  | FTYPE_BLK => (0, { s with files := set_type s.files fd FTYPE_NONE })
  | FTYPE_KBD => (0, { s with files := set_type s.files fd FTYPE_NONE })
  | FTYPE_NONE => (-1, { s with errno := EBADF })

/-- The loop of `close_all_files`, `for (i = ...; i > 0; i--)`, from index
`i` downwards: every slot whose kind is not `FTYPE_NONE` is closed. -/
def close_all_files_loop (be : Backend) : Nat → State → State
  | 0, s => s
  | i + 1, s =>
    if h : i + 1 < NOFILE then
      close_all_files_loop be i
        (if (s.files ⟨i + 1, h⟩).type ≠ FTYPE_NONE then (close be s ⟨i + 1, h⟩).2 else s)
    else
      s

/-- The function `close_all_files()`: the loop starts at `NOFILE - 1`. -/
def close_all_files (be : Backend) (s : State) : State :=
  close_all_files_loop be (NOFILE - 1) s

/-- The function `dup2(oldfd, newfd)`. -/
def dup2 (be : Backend) (s : State) (oldfd newfd : Fin NOFILE) : Int × State :=
  let s1 := if (s.files newfd).type ≠ FTYPE_NONE then (close be s newfd).2 else s
  (0, { s1 with files := Function.update s1.files newfd (s1.files oldfd) })

/-! ## Dispatch -/

/-- The function `read(fd, buf, nbytes)`. The value returned is an `int`: the
`ssize_t` results and the byte count of the keyboard branch are converted. -/
def read (be : Backend) (s : State) (fd : Fin NOFILE) (nbytes : Nat) : Int × State :=
  match (s.files fd).type with
  | FTYPE_CONSOLE => (0, s)
  | FTYPE_FILE =>
    let nbytes := if nbytes > PAGE_SIZE then PAGE_SIZE else nbytes
    let ret := be.fs_read (s.files fd).file_fd nbytes (s.files fd).file_offset
    if ret > 0 then
      (to_int ret, { s with files := set_offset s.files fd ((s.files fd).file_offset + ret) })
    else if ret < 0 then (-1, { s with errno := EIO })
    else (0, s)
  | FTYPE_SOCKET =>
    let res := be.lwip_read (s.files fd).socket_fd nbytes s.errno
    (res.1, { s with errno := res.2 })
  | FTYPE_TAP =>
    let ret := be.netfront_receive (s.files fd).tap_dev nbytes
    if ret ≤ 0 then (-1, { s with errno := EAGAIN }) else (to_int ret, s)
  | FTYPE_KBD =>
    let n := to_int ((nbytes / XENKBD_IN_EVENT_SIZE : Nat) : Int)
    let ret := be.kbdfront_receive (s.files fd).kbd_dev n
    if ret ≤ 0 then (-1, { s with errno := EAGAIN })
    else (to_int (ret * (XENKBD_IN_EVENT_SIZE : Int)), s)
  | FTYPE_NONE => (-1, { s with errno := EBADF })
  | FTYPE_XENBUS => (-1, { s with errno := EBADF })
  | FTYPE_EVTCHN => (-1, { s with errno := EBADF })
  | FTYPE_BLK => (-1, { s with errno := EBADF })

/-- The function `write(fd, buf, nbytes)`. The value returned is an `int`: the
`size_t` count and the `ssize_t` result are converted. -/
def write (be : Backend) (s : State) (fd : Fin NOFILE) (nbytes : Nat) : Int × State :=
  match (s.files fd).type with
  | FTYPE_CONSOLE => (to_int (nbytes : Int), s)
  | FTYPE_FILE =>
    let nbytes := if nbytes > PAGE_SIZE then PAGE_SIZE else nbytes
    let ret := be.fs_write (s.files fd).file_fd nbytes (s.files fd).file_offset
    if ret > 0 then
      (to_int ret, { s with files := set_offset s.files fd ((s.files fd).file_offset + ret) })
    else if ret < 0 then (-1, { s with errno := EIO })
    else (0, s)
  | FTYPE_SOCKET =>
    let res := be.lwip_write (s.files fd).socket_fd nbytes s.errno
    (res.1, { s with errno := res.2 })
  | FTYPE_TAP => (to_int (nbytes : Int), s)
  | FTYPE_NONE => (-1, { s with errno := EBADF })
  | FTYPE_XENBUS => (-1, { s with errno := EBADF })
  | FTYPE_EVTCHN => (-1, { s with errno := EBADF })
  | FTYPE_BLK => (-1, { s with errno := EBADF })
  | FTYPE_KBD => (-1, { s with errno := EBADF })

/-- The function `init_stat(buf)`: everything zero, one link, block size
4096. -/
def init_stat : stat :=
  { st_dev := 0, st_ino := 0, st_nlink := 1, st_rdev := 0, st_blksize := 4096,
    st_blocks := 0, st_mode := 0, st_uid := 0, st_gid := 0, st_size := 0,
    st_atime := 0, st_mtime := 0, st_ctime := 0 }

/-- The function `stat_from_fs(buf, stat)`. -/
def stat_from_fs (buf : stat) (st : fsif_stat_response) : stat :=
  { buf with
    st_mode := st.stat_mode, st_uid := st.stat_uid, st_gid := st.stat_gid,
    st_size := st.stat_size, st_atime := st.stat_atime,
    st_mtime := st.stat_mtime, st_ctime := st.stat_ctime }

/-- The function `fstat(fd, buf)`: the returned value, the state and the
content of `*buf` afterwards. -/
def fstat (be : Backend) (s : State) (fd : Fin NOFILE) : Int × State × stat :=
  let buf := init_stat
  match (s.files fd).type with
  | FTYPE_CONSOLE =>
    (0, s, { buf with st_mode := S_IFCHR_RW, st_uid := 0, st_gid := 0, st_size := 0,
                      st_atime := be.time, st_mtime := be.time, st_ctime := be.time })
  | FTYPE_SOCKET =>
    (0, s, { buf with st_mode := S_IFSOCK_RW, st_uid := 0, st_gid := 0, st_size := 0,
                      st_atime := be.time, st_mtime := be.time, st_ctime := be.time })
  | FTYPE_FILE =>
    let res := be.fs_stat (s.files fd).file_fd
    if res.1 < 0 then (-1, { s with errno := EIO }, buf)
    else (0, s, stat_from_fs buf res.2)
  | FTYPE_NONE => (-1, { s with errno := EBADF }, buf)
  | FTYPE_XENBUS => (-1, { s with errno := EBADF }, buf)
  | FTYPE_EVTCHN => (-1, { s with errno := EBADF }, buf)
  | FTYPE_TAP => (-1, { s with errno := EBADF }, buf)
  | FTYPE_BLK => (-1, { s with errno := EBADF }, buf)
  | FTYPE_KBD => (-1, { s with errno := EBADF }, buf)

/-- The function `lseek(fd, offset, whence)`. -/
def lseek (be : Backend) (s : State) (fd : Fin NOFILE) (offset whence : Int) : Int × State :=
  if (s.files fd).type ≠ FTYPE_FILE then (-1, { s with errno := ESPIPE })
  else if whence = SEEK_SET then
    (offset, { s with files := set_offset s.files fd offset })
  else if whence = SEEK_CUR then
    ((s.files fd).file_offset + offset,
      { s with files := set_offset s.files fd ((s.files fd).file_offset + offset) })
  else if whence = SEEK_END then
    let r := fstat be s fd
    if r.1 ≠ 0 then (-1, r.2.1)
    else (r.2.2.st_size + offset,
      { r.2.1 with files := set_offset r.2.1.files fd (r.2.2.st_size + offset) })
  else (-1, { s with errno := EINVAL })

/-- The function `fsync(fd)`. -/
def fsync (be : Backend) (s : State) (fd : Fin NOFILE) : Int × State :=
  match (s.files fd).type with
  | FTYPE_FILE =>
    if be.fs_sync (s.files fd).file_fd < 0 then (-1, { s with errno := EIO }) else (0, s)
  | _ => (-1, { s with errno := EBADF })

/-- The function `ftruncate(fd, length)`. -/
def ftruncate (be : Backend) (s : State) (fd : Fin NOFILE) (length : Int) : Int × State :=
  match (s.files fd).type with
  | FTYPE_FILE =>
    if be.fs_truncate (s.files fd).file_fd length < 0 then (-1, { s with errno := EIO })
    else (0, s)
  | _ => (-1, { s with errno := EBADF })

/-! ## Directory cursor -/

/-- Modelled from the spec: what one call of `fs_list` hands back: the page
of names (`NULL` or an array), the count written to `*nr_files` and the flag
written to `*has_more`. -/
structure fs_list_result where
  entries : Option (List String)
  nbentries : Int
  has_more : Bool

/-- The file-system import as the cursor sees it: the answer of `fs_list` as
a function of how many fetches came before, of the path and of the offset
passed; and the offsets passed by the fetches made so far, oldest first. -/
structure FsImport where
  fs_list : Nat → String → Int → fs_list_result
  calls : List Int

/-- Modelled from the spec: `DIR` of the missing `dirent.h`: the path, the
read offset, the current page (`NULL` or an array whose handed-out names are
set to `NULL`), the index into the page, the page's count and the "more pages
might exist" flag. `entries_freed` is not a field of the C structure: it
records that the array `entries` points at was passed to `free` and the
pointer not assigned since, so that it dangles. -/
structure DIR where
  name : String
  offset : Int
  entries : Option (List (Option String))
  entries_freed : Bool
  curentry : Int
  nbentries : Int
  has_more : Bool

/-- Modelled from the spec: `struct dirent` of the missing `dirent.h`, the
name the cursor points at. -/
structure dirent where
  d_name : Option String
  deriving DecidableEq

/-- The function `opendir(name)`. -/
def opendir (name : String) : DIR :=
  { name := name, offset := 0, entries := none, entries_freed := false, curentry := -1,
    nbentries := 0, has_more := true }

/-- The element `entries[i]` of a page; `none` when the page is `NULL`,
released, or shorter than `i + 1` (undefined behaviour). -/
def entry_at (dir : DIR) (i : Int) : Option (Option String) :=
  match dir.entries with
  | some es => if dir.entries_freed then none else if 0 ≤ i then es.get? i.toNat else none
  | none => none

/-- The first statement of `readdir`: when `curentry >= 0`, the name handed
out last is freed and its place set to `NULL`. -/
def readdir_release (dir : DIR) : Option DIR :=
  if dir.curentry ≥ 0 then
    match dir.entries with
    | some es =>
      if dir.entries_freed then none
      else if dir.curentry.toNat < es.length then
        some { dir with entries := some (es.set dir.curentry.toNat none) }
      else none
    | none => none
  else some dir

/-- The statement `free(dir->entries)` of `readdir`: nothing for `NULL`; a
live array is released and the pointer, which is not reset, dangles from then
on; releasing an array that was released already is undefined behaviour. -/
def free_entries (dir : DIR) : Option DIR :=
  match dir.entries with
  | none => some dir
  | some _ => if dir.entries_freed then none else some { dir with entries_freed := true }

/-- The last two statements of `readdir`: the dirent names
`entries[curentry]`. -/
def readdir_current (dir : DIR) (imp : FsImport) : Option (Option dirent × DIR × FsImport) :=
  match entry_at dir dir.curentry with
  | some d_name => some (some { d_name := d_name }, dir, imp)
  | none => none

/-- The function `readdir(dir)`: the returned pointer (`none` inside is
`NULL`), the cursor and the import afterwards. -/
def readdir (dir : DIR) (imp : FsImport) : Option (Option dirent × DIR × FsImport) :=
  match readdir_release dir with
  | none => none
  | some dir =>
    let dir := { dir with curentry := dir.curentry + 1 }
    if dir.curentry ≥ dir.nbentries then
      let dir := { dir with offset := dir.offset + dir.nbentries }
      match free_entries dir with
      | none => none
      | some dir =>
        let dir := { dir with curentry := -1, nbentries := 0 }
        if !dir.has_more then some (none, dir, imp)
        else
          let r := imp.fs_list imp.calls.length dir.name dir.offset
          let imp := { imp with calls := imp.calls ++ [dir.offset] }
          let dir := { dir with entries := r.entries.map (List.map some),
                                entries_freed := false,
                                nbentries := r.nbentries, has_more := r.has_more }
          if dir.entries.isNone || dir.nbentries = 0 then some (none, dir, imp)
          else readdir_current { dir with curentry := 0 } imp
    else readdir_current dir imp

/-- Successive calls of `readdir`, `n` of them: the pointers returned, in
order, and the cursor and the import after the last call. -/
def readdir_n : Nat → DIR → FsImport → Option (List (Option dirent) × DIR × FsImport)
  | 0, dir, imp => some ([], dir, imp)
  | n + 1, dir, imp =>
    match readdir dir imp with
    | none => none
    | some (d, dir1, imp1) =>
      match readdir_n n dir1 imp1 with
      | none => none
      | some (ds, dir2, imp2) => some (d :: ds, dir2, imp2)

/-! ## Directory pages, for the statements about the cursor -/

/-- A well-formed page as `fs_list` hands it back: the array of `names`, their
count in `*nr_files` and the flag in `*has_more`. -/
def page_of (names : List String) (has_more : Bool) : fs_list_result :=
  { entries := some names, nbentries := (names.length : Int), has_more := has_more }

/-- The backend answers the successive fetches, from fetch number `k` on and
asked at the running offset `o`, with the pages `pages`, each reported with
"more may exist": fetch `k` at offset `o` gets the first page, fetch `k + 1`
at offset `o` plus that page's count gets the second, and so on. -/
def fs_list_serves (fs_list : Nat → String → Int → fs_list_result) (path : String) :
    Nat → Int → List (List String) → Prop
  | _, _, [] => True
  | k, o, p :: ps =>
    fs_list k path o = page_of p true ∧
    fs_list_serves fs_list path (k + 1) (o + (p.length : Int)) ps

/-- The offsets at which the pages `pages` are fetched when the first fetch is
at offset `o`: each page is asked at `o` plus the counts of the pages before
it. -/
def page_offsets : Int → List (List String) → List Int
  | _, [] => []
  | o, p :: ps => o :: page_offsets (o + (p.length : Int)) ps

/-- The total number of entries in the first `i` pages of `pages`. -/
def entries_before (pages : List (List String)) (i : Nat) : Int :=
  (((pages.take i).map List.length).sum : Nat)

/-- What `readdir` returns for the name `n`: a pointer to a dirent with
`d_name` equal to `n`. -/
def dirent_of (n : String) : Option dirent := some { d_name := some n }

/-- The cursor while it stands on the name `cur` of its page: `pre` names
before it were handed out and released, the names `rest` are still to
come. -/
def dir_in_page (name : String) (offset : Int) (pre : Nat) (cur : String)
    (rest : List String) (has_more : Bool) : DIR :=
  { name := name, offset := offset,
    entries := some (List.replicate pre none ++ some cur :: rest.map some),
    entries_freed := false,
    curentry := (pre : Int), nbentries := ((pre + 1 + rest.length : Nat) : Int),
    has_more := has_more }

/-- The cursor has handed out every name of its page (or is freshly opened):
the next `readdir` finds the page exhausted. `o` is the offset the next fetch
would pass, `has_more` the flag of the page; the page, if any, is live. -/
def dir_exhausted (dir : DIR) (path : String) (has_more : Bool) (o : Int) : Prop :=
  dir.name = path ∧ dir.has_more = has_more ∧ dir.curentry + 1 = dir.nbentries ∧
  dir.offset + dir.nbentries = o ∧ dir.entries_freed = false ∧
  (dir.curentry ≥ 0 → ∃ es, dir.entries = some es ∧ dir.curentry.toNat < es.length)

/-! ## Select -/

/-- The socket-level sets and `sock_nfds` that the first loop of
`select_poll` builds. -/
structure SockSets where
  sock_readfds : fd_set
  sock_writefds : fd_set
  sock_exceptfds : fd_set
  sock_nfds : Nat

/-- The body of the first loop of `select_poll` at index `i`, whose slot is
`f`. -/
def sock_body (f : file) (i : Nat) (readfds writefds exceptfds : fd_set)
    (acc : SockSets) : SockSets :=
  if f.type = FTYPE_SOCKET then
    let acc := if FD_ISSET i readfds then
      { acc with sock_readfds := FD_SET f.socket_fd acc.sock_readfds, sock_nfds := i + 1 }
      else acc
    let acc := if FD_ISSET i writefds then
      { acc with sock_writefds := FD_SET f.socket_fd acc.sock_writefds, sock_nfds := i + 1 }
      else acc
    if FD_ISSET i exceptfds then
      { acc with sock_exceptfds := FD_SET f.socket_fd acc.sock_exceptfds, sock_nfds := i + 1 }
    else acc
  else acc

/-- The first loop of `select_poll`, `for (i = 0; i < nfds; i++)`, after its
first `nfds` iterations; `none` when it reads `files[i]` past the table. -/
def sock_loop (files : Table) (readfds writefds exceptfds : fd_set) : Nat → Option SockSets
  | 0 => some { sock_readfds := FD_ZERO, sock_writefds := FD_ZERO,
                sock_exceptfds := FD_ZERO, sock_nfds := 0 }
  | i + 1 =>
    match sock_loop files readfds writefds exceptfds i with
    | none => none
    | some acc =>
      if h : i < NOFILE then some (sock_body (files ⟨i, h⟩) i readfds writefds exceptfds acc)
      else none

/-- The variables the second loop of `select_poll` updates: the count `n` and
the three sets passed by the caller; and `errno`. -/
structure PollState where
  n : Int
  readfds : fd_set
  writefds : fd_set
  exceptfds : fd_set
  errno : Int

/-- The statement
`if (FD_ISSET(i, readfds)) { if (ready) n++; else FD_CLR(i, readfds); }`
of the second loop of `select_poll`. -/
def poll_read (ready : Bool) (i : Nat) (st : PollState) : PollState :=
  if FD_ISSET i st.readfds then
    if ready then { st with n := st.n + 1 }
    else { st with readfds := FD_CLR i st.readfds }
  else st

/-- The statement
`if (FD_ISSET(i, writefds)) { if (ready) n++; else FD_CLR(i, writefds); }`
of the second loop of `select_poll`. -/
def poll_write (ready : Bool) (i : Nat) (st : PollState) : PollState :=
  if FD_ISSET i st.writefds then
    if ready then { st with n := st.n + 1 }
    else { st with writefds := FD_CLR i st.writefds }
  else st

/-- The statement
`if (FD_ISSET(i, exceptfds)) { if (ready) n++; else FD_CLR(i, exceptfds); }`
of the second loop of `select_poll`. -/
def poll_except (ready : Bool) (i : Nat) (st : PollState) : PollState :=
  if FD_ISSET i st.exceptfds then
    if ready then { st with n := st.n + 1 }
    else { st with exceptfds := FD_CLR i st.exceptfds }
  else st

/-- The body of the second loop of `select_poll` at index `i`, whose slot is
`f`; `sock` is what `lwip_select` returned. -/
def poll_body (f : file) (sock : lwip_select_result) (i : Nat) (st : PollState) : PollState :=
  match f.type with
  | FTYPE_NONE =>
    { st with readfds := FD_CLR i st.readfds, writefds := FD_CLR i st.writefds,
              exceptfds := FD_CLR i st.exceptfds }
  | FTYPE_FILE =>
    { st with readfds := FD_CLR i st.readfds, writefds := FD_CLR i st.writefds,
              exceptfds := FD_CLR i st.exceptfds }
  | FTYPE_CONSOLE =>
    { st with readfds := FD_CLR i st.readfds,
              n := if FD_ISSET i st.writefds then st.n + 1 else st.n,
              exceptfds := FD_CLR i st.exceptfds }
  | FTYPE_XENBUS =>
    let st := poll_read f.xenbus_events i st
    { st with writefds := FD_CLR i st.writefds, exceptfds := FD_CLR i st.exceptfds }
  | FTYPE_EVTCHN =>
    let st := poll_read f.read i st
    { st with writefds := FD_CLR i st.writefds, exceptfds := FD_CLR i st.exceptfds }
  | FTYPE_TAP =>
    let st := poll_read f.read i st
    { st with writefds := FD_CLR i st.writefds, exceptfds := FD_CLR i st.exceptfds }
  | FTYPE_BLK =>
    let st := poll_read f.read i st
    { st with writefds := FD_CLR i st.writefds, exceptfds := FD_CLR i st.exceptfds }
  | FTYPE_KBD =>
    let st := poll_read f.read i st
    { st with writefds := FD_CLR i st.writefds, exceptfds := FD_CLR i st.exceptfds }
  | FTYPE_SOCKET =>
    let st := poll_read (sock.sock_n != 0 && FD_ISSET f.socket_fd sock.readfds) i st
    let st := poll_write (sock.sock_n != 0 && FD_ISSET f.socket_fd sock.writefds) i st
    poll_except (sock.sock_n != 0 && FD_ISSET f.socket_fd sock.exceptfds) i st

/-- The second loop of `select_poll`, `for (i = 0; i < nfds; i++)`, after its
first `nfds` iterations from the state `st`; `none` when it reads `files[i]`
past the table. -/
def poll_loop (files : Table) (sock : lwip_select_result) (st : PollState) :
    Nat → Option PollState
  | 0 => some st
  | i + 1 =>
    match poll_loop files sock st i with
    | none => none
    | some st1 =>
      if h : i < NOFILE then some (poll_body (files ⟨i, h⟩) sock i st1) else none

/-- The function `select_poll(nfds, readfds, writefds, exceptfds)`: the
returned `n` and the three sets afterwards. -/
def select_poll (be : Backend) (files : Table) (errno : Int) (nfds : Nat)
    (readfds writefds exceptfds : fd_set) : Option PollState :=
  match sock_loop files readfds writefds exceptfds nfds with
  | none => none
  | some ss =>
    let sock := be.lwip_select ss.sock_nfds ss.sock_readfds ss.sock_writefds
      ss.sock_exceptfds errno
    poll_loop files sock
      { n := 0, readfds := readfds, writefds := writefds, exceptfds := exceptfds,
        errno := sock.errno } nfds

/-- The number of descriptors in `0 .. nfds-1` that are members of `set`. -/
def count_set (nfds : Nat) (set : fd_set) : Nat :=
  (List.range nfds).countP (fun i => FD_ISSET i set)

/-- Modelled from the spec: `struct timeval` of the missing header. -/
structure timeval where
  tv_sec : Int
  tv_usec : Int
  deriving DecidableEq

/-- Modelled from the spec: the fields of `struct thread` (missing `sched.h`)
that `select` touches: the runnable flag and the wakeup deadline. -/
structure thread where
  runnable : Bool
  wakeup_time : Int
  deriving DecidableEq

/-- Modelled from the spec: a waiter registration (`DEFINE_WAIT` of the
missing `wait.h`), identified by a number. -/
abbrev waiter := Nat

/-- The waiter `w1` of `select`. -/
def w1 : waiter := 1

/-- The waiter `w2` of `select`. -/
def w2 : waiter := 2

/-- The waiter `w3` of `select`. -/
def w3 : waiter := 3

/-- The waiter `w4` of `select`. -/
def w4 : waiter := 4

/-- The waiter `w5` of `select`. -/
def w5 : waiter := 5

/-- The five wait queues `select` registers on, each the list of the waiters
registered on it. -/
structure WaitQueues where
  netfront_queue : List waiter
  event_queue : List waiter
  blkfront_queue : List waiter
  xenbus_watch_queue : List waiter
  kbdfront_queue : List waiter
  deriving DecidableEq

/-- Modelled from the spec: the registration made by `add_waiter(w, queue)`
of the missing `wait.h`: `w` is linked on `queue`. The same statement also
blocks the calling thread, see `block`. -/
def add_waiter (w : waiter) (queue : List waiter) : List waiter := w :: queue

/-- Modelled from the spec: `block(thread)` of the missing `sched.h`, done by
every `add_waiter`: the thread is no longer runnable. -/
def block (th : thread) : thread := { th with runnable := false }

/-- Modelled from the spec: `wake(thread)` of the missing `sched.h`: the
thread is marked runnable again. -/
def wake (th : thread) : thread := { th with runnable := true }

/-- Modelled from the spec: `remove_waiter(w)` of the missing `wait.h`: the
registration `w` is unlinked from the queue it is on. -/
def remove_waiter (w : waiter) (q : WaitQueues) : WaitQueues :=
  { netfront_queue := q.netfront_queue.erase w,
    event_queue := q.event_queue.erase w,
    blkfront_queue := q.blkfront_queue.erase w,
    xenbus_watch_queue := q.xenbus_watch_queue.erase w,
    kbdfront_queue := q.kbdfront_queue.erase w }

/-- Modelled from the spec: `SECONDS(s)` of the missing time header, seconds
as nanoseconds. -/
def SECONDS (s : Int) : Int := s * 1000000000

/-- What `select` finds outside `lib/sys.c` during one call: whether it runs
on the main thread, the readings of `NOW()` at entry and at the timeout test,
what `schedule()` does to the thread's fields, and the table and the
collaborators as they are when the thread runs again. -/
structure Sched where
  on_main_thread : Bool
  NOW_start : Int
  NOW_check : Int
  schedule : thread → thread
  files_resumed : Table
  be_resumed : Backend

/-- The arguments of `select`; a `NULL` pointer is `none`. -/
structure SelectArgs where
  nfds : Nat
  readfds : Option fd_set
  writefds : Option fd_set
  exceptfds : Option fd_set
  timeout : Option timeval

/-- What `select` leaves: the returned value, what the four pointers point
at, `errno`, the wait queues, the thread's fields, and whether `schedule()`
was called. -/
structure SelectResult where
  ret : Int
  readfds : Option fd_set
  writefds : Option fd_set
  exceptfds : Option fd_set
  timeout : Option timeval
  errno : Int
  queues : WaitQueues
  thread : thread
  scheduled : Bool

/-- The label `out:` of `select`: the five registrations are removed. -/
def select_out (q : WaitQueues) : WaitQueues :=
  remove_waiter w5 (remove_waiter w4 (remove_waiter w3 (remove_waiter w2 (remove_waiter w1 q))))

/-- The function `select(nfds, readfds, writefds, exceptfds, timeout)`,
called with the table `files`, `errno`, the wait queues `q` and the thread
`th`; `none` when the assertion fails or the poll reads past the table. -/
def select (be : Backend) (sc : Sched) (files : Table) (errno : Int) (q : WaitQueues)
    (th : thread) (a : SelectArgs) : Option SelectResult :=
  if !sc.on_main_thread then none
  else
    let start := sc.NOW_start
    let stop := match a.timeout with
      | some tv => start + SECONDS tv.tv_sec + tv.tv_usec * 1000
      | none => start
    let q := { q with netfront_queue := add_waiter w1 q.netfront_queue }
    let q := { q with event_queue := add_waiter w2 q.event_queue }
    let q := { q with blkfront_queue := add_waiter w3 q.blkfront_queue }
    let q := { q with xenbus_watch_queue := add_waiter w4 q.xenbus_watch_queue }
    let q := { q with kbdfront_queue := add_waiter w5 q.kbdfront_queue }
    let th := block th
    let myread := a.readfds.getD FD_ZERO
    let mywrite := a.writefds.getD FD_ZERO
    let myexcept := a.exceptfds.getD FD_ZERO
    match select_poll be files errno a.nfds myread mywrite myexcept with
    | none => none
    | some p =>
      if p.n ≠ 0 then
        some { ret := p.n,
               readfds := a.readfds.map (fun _ => p.readfds),
               writefds := a.writefds.map (fun _ => p.writefds),
               exceptfds := a.exceptfds.map (fun _ => p.exceptfds),
               timeout := a.timeout, errno := p.errno, queues := select_out q,
               thread := wake th, scheduled := false }
      else if a.timeout.isSome ∧ sc.NOW_check ≥ stop then
        some { ret := 0,
               readfds := a.readfds.map (fun _ => FD_ZERO),
               writefds := a.writefds.map (fun _ => FD_ZERO),
               exceptfds := a.exceptfds.map (fun _ => FD_ZERO),
               timeout := some { tv_sec := 0, tv_usec := 0 }, errno := p.errno,
               queues := select_out q, thread := wake th,
               scheduled := false }
      else
        let th := if a.timeout.isSome then { th with wakeup_time := stop } else th
        let th := sc.schedule th
        match select_poll sc.be_resumed sc.files_resumed p.errno a.nfds myread mywrite
            myexcept with
        | none => none
        | some p2 =>
          if p2.n ≠ 0 then
            some { ret := p2.n,
                   readfds := a.readfds.map (fun _ => p2.readfds),
                   writefds := a.writefds.map (fun _ => p2.writefds),
                   exceptfds := a.exceptfds.map (fun _ => p2.exceptfds),
                   timeout := a.timeout, errno := p2.errno, queues := select_out q,
                   thread := th, scheduled := true }
          else
            some { ret := -1, readfds := a.readfds, writefds := a.writefds,
                   exceptfds := a.exceptfds, timeout := a.timeout, errno := EINTR,
                   queues := select_out q, thread := th, scheduled := true }

/-! ## Memory mapper -/

/-- Bitwise complement `~x` of a word of `bits` bits. -/
def NOT (bits x : Nat) : Nat := 2 ^ bits - 1 - x

/-- Modelled from the spec: `PAGE_MASK` of the missing architecture header,
`~(PAGE_SIZE-1)`, in a machine word of `bits` bits. -/
def PAGE_MASK (bits : Nat) : Nat := NOT bits (PAGE_SIZE - 1)

/-- Modelled from the spec: `PROT_READ` of the missing `sys/mman.h`. -/
def PROT_READ : Nat := 1

/-- Modelled from the spec: `PROT_WRITE` of the missing `sys/mman.h`. -/
def PROT_WRITE : Nat := 2

/-- Modelled from the spec: `MAP_SHARED` of the missing `sys/mman.h`. -/
def MAP_SHARED : Nat := 1

/-- Modelled from the spec: `MAP_PRIVATE` of the missing `sys/mman.h`. -/
def MAP_PRIVATE : Nat := 2

/-- Modelled from the spec: `MAP_ANON` of the missing `sys/mman.h`. -/
def MAP_ANON : Nat := 32

/-- The statement `length = (length + PAGE_SIZE - 1) & PAGE_MASK` of `mmap`,
on a `size_t` of `bits` bits: the sum wraps modulo `2 ^ bits`. -/
def mmap_length (bits length : Nat) : Nat :=
  ((length + PAGE_SIZE - 1) % 2 ^ bits) &&& PAGE_MASK bits

/-- The function `mmap(start, length, prot, flags, fd, offset)` on a machine
word of `bits` bits; `map_zero n alignment` is the address the zero-page
allocator returns. A failed `ASSERT` is `none`. -/
def mmap (bits : Nat) (map_zero : Nat → Nat → Nat) (start length prot flags : Nat)
    (fd offset : Int) : Option Nat :=
  if start ≠ 0 then none
  else
    let length := mmap_length bits length
    if prot ≠ PROT_READ ||| PROT_WRITE then none
    else if ¬ (flags = MAP_SHARED ||| MAP_ANON ∨ flags = MAP_PRIVATE ||| MAP_ANON) then none
    else if fd ≠ -1 then none
    else if offset ≠ 0 then none
    else some (map_zero (length / PAGE_SIZE) 1)

/-- Modelled from the spec: the hypercall number
`__HYPERVISOR_update_va_mapping` of the missing hypervisor interface
header. -/
def __HYPERVISOR_update_va_mapping : Nat := 14

/-- Modelled from the spec: `UVMF_INVLPG` of the missing hypervisor interface
header. -/
def UVMF_INVLPG : Nat := 2

/-- Modelled from the spec: `UVMF_ALL` of the missing hypervisor interface
header. -/
def UVMF_ALL : Nat := 8

/-- Modelled from the spec: the request half of `multicall_entry_t` of the
missing hypervisor interface header: the operation and its arguments. The
`result` member, written by the hypervisor, is what `HYPERVISOR_multicall`
hands back. -/
structure multicall_entry where
  op : Nat
  args : List Nat
  deriving DecidableEq

/-- The request that the first loop of `munmap` writes into `call[i]`: the
address is `&data[i]`, page `i` of the region at `start`. -/
def munmap_call (start i : Nat) : multicall_entry :=
  { op := __HYPERVISOR_update_va_mapping,
    args := [start + i * PAGE_SIZE, 0, 0, UVMF_INVLPG ||| UVMF_ALL] }

/-- The first loop of `munmap`, `for (i = 0; i < n; i++)`: the array `call`
after its first `n` iterations. -/
def munmap_calls (start : Nat) : Nat → List multicall_entry
  | 0 => []
  | i + 1 => munmap_calls start i ++ [munmap_call start i]

/-- The second loop of `munmap`, `for (i = ...; i < n; i++)`, from index `i`
with `fuel` iterations left: the first non-zero `call[i].result`, or `none`
when the loop runs to its end. -/
def munmap_check (result : Nat → Int) : Nat → Nat → Option Int
  | 0, _ => none
  | fuel + 1, i =>
    if result i ≠ 0 then some (result i) else munmap_check result fuel (i + 1)

/-- The function `munmap(start, length)` on a machine word of `bits` bits:
the returned value and `errno` afterwards. `HYPERVISOR_multicall batch` is
what the one batched hypercall returns and the `result` it writes into each
entry. The count is `int n = length / PAGE_SIZE`, converted from `size_t`.
A negative size of the array `call[n]` (undefined behaviour) and a failed
`ASSERT` are `none`. -/
def munmap (bits : Nat) (HYPERVISOR_multicall : List multicall_entry → Int × (Nat → Int))
    (errno : Int) (start length : Nat) : Option (Int × Int) :=
  let n := to_int ((length / PAGE_SIZE : Nat) : Int)
  if n < 0 then none
  else if start &&& NOT bits (PAGE_MASK bits) ≠ 0 then none
  else if length &&& NOT bits (PAGE_MASK bits) ≠ 0 then none
  else
    let r := HYPERVISOR_multicall (munmap_calls start n.toNat)
    if r.1 ≠ 0 then some (-1, -r.1)
    else
      match munmap_check r.2 n.toNat 0 with
      | some e => some (-1, e)
      | none => some (0, errno)

/-! ## Clock -/

/-- Modelled from the spec: `CLOCK_REALTIME` of the missing `time.h`, the
wall-clock kind. -/
def CLOCK_REALTIME : Int := 1

/-- Modelled from the spec: `CLOCK_MONOTONIC` of the missing `time.h`, the
monotonic kind. -/
def CLOCK_MONOTONIC : Int := 4

/-- Modelled from the spec: `struct timespec` of the missing `time.h`. -/
structure timespec where
  tv_sec : Int
  tv_nsec : Int
  deriving DecidableEq

/-- The two time sources `clock_gettime` reads: what `gettimeofday` (the
calendar time query) writes, and what `monotonic_clock()` (the scheduler's
raw counter, nanoseconds, a `u64`) returns. -/
structure Clocks where
  gettimeofday : timeval
  monotonic_clock : Nat

/-- The function `clock_gettime(clk_id, tp)`: the returned value, `errno` and
the content of `*tp` afterwards. -/
def clock_gettime (c : Clocks) (errno : Int) (clk_id : Int) (tp : timespec) :
    Int × Int × timespec :=
  if clk_id = CLOCK_MONOTONIC then
    (0, errno, { tv_sec := c.gettimeofday.tv_sec, tv_nsec := c.gettimeofday.tv_usec * 1000 })
  else if clk_id = CLOCK_REALTIME then
    (0, errno, { tv_sec := ((c.monotonic_clock / 1000000000 : Nat) : Int),
                 tv_nsec := ((c.monotonic_clock % 1000000000 : Nat) : Int) })
  else (-1, EINVAL, tp)

/-! ## Concrete collaborators, for the examples -/

/-- A backend whose file-system calls all return `r`; the other calls return
0 and leave `errno`, and `lwip_select` reports no ready socket. -/
def backend_const (r : Int) : Backend :=
  { fs_read := fun _ _ _ => r,
    fs_write := fun _ _ _ => r,
    fs_close := fun _ => r,
    fs_sync := fun _ => r,
    fs_truncate := fun _ _ => r,
    fs_stat := fun _ =>
      (r, { stat_mode := 0, stat_uid := 0, stat_gid := 0, stat_size := 0,
            stat_atime := 0, stat_mtime := 0, stat_ctime := 0 }),
    lwip_read := fun _ _ e => (0, e),
    lwip_write := fun _ _ e => (0, e),
    lwip_close := fun _ e => (0, e),
    netfront_receive := fun _ _ => 0,
    kbdfront_receive := fun _ _ => 0,
    lwip_select := fun _ r w e err =>
      { sock_n := 0, readfds := r, writefds := w, exceptfds := e, errno := err },
    time := 0 }

/-- The backend whose every call returns 0. -/
def backend_idle : Backend := backend_const 0

/-- The descriptor 3, the first one after stdin, stdout and stderr. -/
def fd3 : Fin NOFILE := ⟨3, by decide⟩

/-- The descriptor 4. -/
def fd4 : Fin NOFILE := ⟨4, by decide⟩

/-- The initial table after slot 3 was given the kind `type`. -/
def files_with (type : fd_type) : Table := set_type files_init fd3 type

/-- The initial state after slot 3 was given the kind `type`. -/
def state_with (type : fd_type) : State := { files := files_with type, errno := 0 }

/-- A file-system import that answers its fetches from a script: the `k`-th
fetch gets the `k`-th page of `pages`, and an empty last page once the script
is over. -/
def fs_list_script (pages : List fs_list_result) : Nat → String → Int → fs_list_result :=
  fun k _ _ => pages.getD k { entries := none, nbentries := 0, has_more := false }

/-- The import whose fetches report pages of sizes 3, 2 and 0, the first two
with "more may exist", the last one without. -/
def import_3_2_0 : FsImport :=
  { fs_list := fs_list_script
      [{ entries := some ["a", "b", "c"], nbentries := 3, has_more := true },
       { entries := some ["d", "e"], nbentries := 2, has_more := true },
       { entries := some [], nbentries := 0, has_more := false }],
    calls := [] }

/-- No waiter registered on any queue. -/
def queues_empty : WaitQueues :=
  { netfront_queue := [], event_queue := [], blkfront_queue := [],
    xenbus_watch_queue := [], kbdfront_queue := [] }

/-- The main thread, running. -/
def thread_main : thread := { runnable := true, wakeup_time := 0 }

/-- A scheduler under which nothing happens while the thread sleeps: the
clock reads 0 at entry and 1 ns at the timeout test, `schedule()` returns
with the thread runnable again, and the table is the initial one, with no
event pending. -/
def sched_quiet : Sched :=
  { on_main_thread := true, NOW_start := 0, NOW_check := 1,
    schedule := fun th => { th with runnable := true },
    files_resumed := files_init, be_resumed := backend_idle }

/-- A call of `select` that asks whether stdin is readable, with a timeout of
100 ms. -/
def select_stdin_100ms : SelectArgs :=
  { nfds := 1, readfds := some (fun i => i == 0), writefds := none, exceptfds := none,
    timeout := some { tv_sec := 0, tv_usec := 100000 } }

/-- A hypervisor that carries out every request of a batch: the batch call
and every request report 0. -/
def multicall_ok : List multicall_entry → Int × (Nat → Int) := fun _ => (0, fun _ => 0)

/-- A hypervisor whose batch call returns the number of requests it was
handed, so that it refuses every batch that is not empty. -/
def multicall_count : List multicall_entry → Int × (Nat → Int) :=
  fun batch => ((batch.length : Int), fun _ => 0)

/-- Time sources whose readings differ: the calendar time is 1000 s and 5 µs,
the monotonic counter is at 3000000007 ns. -/
def clocks_example : Clocks :=
  { gettimeofday := { tv_sec := 1000, tv_usec := 5 }, monotonic_clock := 3000000007 }

/-! ## Theorems: descriptor table -/

/-- A successful scan from `i` returns the first empty slot at or after `i`
and only sets that slot's kind. -/
theorem alloc_fd_loop_some (type : fd_type) (files : Table) :
    ∀ (fuel i : Nat) (r : Fin NOFILE) (t : Table),
      alloc_fd_loop type files fuel i = some (r, t) →
      i ≤ r.val ∧ (files r).type = FTYPE_NONE ∧
      (∀ j : Fin NOFILE, i ≤ j.val → j < r → (files j).type ≠ FTYPE_NONE) ∧
      t = set_type files r type := by
  intro fuel
  induction fuel with
  | zero => intro i r t h; simp [alloc_fd_loop] at h
  | succ fuel ih =>
    intro i r t h
    unfold alloc_fd_loop at h
    by_cases hi : i < NOFILE
    · rw [dif_pos hi] at h
      by_cases hn : (files ⟨i, hi⟩).type = FTYPE_NONE
      · rw [if_pos hn] at h
        injection h with h
        injection h with h1 h2
        subst h1
        refine ⟨le_refl _, hn, ?_, h2.symm⟩
        intro j hj hlt
        exact absurd hlt (by simp [Fin.lt_def]; exact hj)
      · rw [if_neg hn] at h
        obtain ⟨h1, h2, h3, h4⟩ := ih (i + 1) r t h
        refine ⟨by omega, h2, ?_, h4⟩
        intro j hj hlt
        by_cases hji : j.val = i
        · have : j = ⟨i, hi⟩ := Fin.ext hji
          rw [this]; exact hn
        · exact h3 j (by omega) hlt
    · rw [dif_neg hi] at h
      exact absurd h (by simp)

/-- With enough iterations left, the scan from `i` fails exactly when no
slot at or after `i` is empty. -/
theorem alloc_fd_loop_none (type : fd_type) (files : Table) :
    ∀ (fuel i : Nat), NOFILE ≤ fuel + i →
      (alloc_fd_loop type files fuel i = none ↔
        ∀ j : Fin NOFILE, i ≤ j.val → (files j).type ≠ FTYPE_NONE) := by
  intro fuel
  induction fuel with
  | zero =>
    intro i hi
    simp only [alloc_fd_loop, true_iff]
    intro j hj
    exact absurd j.isLt (by omega)
  | succ fuel ih =>
    intro i hfi
    unfold alloc_fd_loop
    by_cases hi : i < NOFILE
    · rw [dif_pos hi]
      by_cases hn : (files ⟨i, hi⟩).type = FTYPE_NONE
      · rw [if_pos hn]
        simp only [false_iff, reduceCtorEq]
        intro hall
        exact hall ⟨i, hi⟩ (le_refl _) hn
      · rw [if_neg hn, ih (i + 1) (by omega)]
        constructor
        · intro hall j hj
          by_cases hji : j.val = i
          · have : j = ⟨i, hi⟩ := Fin.ext hji
            rw [this]; exact hn
          · exact hall j (by omega)
        · intro hall j hj
          exact hall j (by omega)
    · rw [dif_neg hi]
      simp only [true_iff]
      intro j hj
      exact absurd j.isLt (by omega)

/-- C1. For every table and every non-empty kind, `alloc_fd` aborts (`none`)
exactly when no slot is empty; otherwise it returns the lowest index `i`
whose slot is empty, sets the kind of slot `i` to the requested kind (its
payload untouched), leaves every other slot and `errno` unchanged, and the
next call, whatever its kind, returns another index. -/
theorem alloc_fd_contract (type : fd_type) (s : State) (htype : type ≠ FTYPE_NONE) :
    (alloc_fd type s = none ↔ ∀ i : Fin NOFILE, (s.files i).type ≠ FTYPE_NONE) ∧
    (∀ (i : Fin NOFILE) (s1 : State), alloc_fd type s = some (i, s1) →
      (s.files i).type = FTYPE_NONE ∧
      (∀ j : Fin NOFILE, j < i → (s.files j).type ≠ FTYPE_NONE) ∧
      s1.files i = { s.files i with type := type } ∧
      (∀ j : Fin NOFILE, j ≠ i → s1.files j = s.files j) ∧
      s1.errno = s.errno ∧
      (∀ (type2 : fd_type) (i2 : Fin NOFILE) (s2 : State),
        alloc_fd type2 s1 = some (i2, s2) → i2 ≠ i)) := by
  have key : ∀ (ty : fd_type) (st : State) (i : Fin NOFILE) (s1 : State),
      alloc_fd ty st = some (i, s1) →
      (st.files i).type = FTYPE_NONE ∧
      (∀ j : Fin NOFILE, j < i → (st.files j).type ≠ FTYPE_NONE) ∧
      s1.files = set_type st.files i ty ∧ s1.errno = st.errno := by
    intro ty st i s1 h
    unfold alloc_fd at h
    cases hl : alloc_fd_loop ty st.files NOFILE 0 with
    | none => rw [hl] at h; simp at h
    | some p =>
      obtain ⟨r, t⟩ := p
      rw [hl] at h
      simp only [Option.some.injEq, Prod.mk.injEq] at h
      obtain ⟨h1, h2⟩ := h
      subst h1; subst h2
      obtain ⟨_, hn, hlow, ht⟩ := alloc_fd_loop_some ty st.files NOFILE 0 r t hl
      exact ⟨hn, fun j hj => hlow j (Nat.zero_le _) hj, ht, rfl⟩
  constructor
  · unfold alloc_fd
    have hnone := alloc_fd_loop_none type s.files NOFILE 0 (by omega)
    cases hl : alloc_fd_loop type s.files NOFILE 0 with
    | none =>
      simp only [true_iff]
      intro i
      exact (hnone.mp hl) i (Nat.zero_le _)
    | some p =>
      simp only [false_iff, reduceCtorEq]
      intro hall
      have := hnone.mpr (fun j _ => hall j)
      rw [hl] at this
      simp at this
  · intro i s1 h
    obtain ⟨hn, hlow, hfiles, herr⟩ := key type s i s1 h
    refine ⟨hn, hlow, ?_, ?_, herr, ?_⟩
    · rw [hfiles]; simp [set_type]
    · intro j hj; rw [hfiles]; simp [set_type, Function.update_noteq hj]
    · intro type2 i2 s2 h2 heq
      obtain ⟨hn2, _, _, _⟩ := key type2 s1 i2 s2 h2
      rw [heq, hfiles] at hn2
      simp [set_type] at hn2
      exact htype hn2

/-- Witness of C1: at the initial table, asking for a plain file, the
hypothesis holds, the contract applies and `alloc_fd` returns descriptor 3. -/
theorem alloc_fd_contract_witness :
    FTYPE_FILE ≠ FTYPE_NONE ∧
    (alloc_fd FTYPE_FILE state_init).map Prod.fst = some fd3 ∧
    (alloc_fd FTYPE_FILE state_init = none ↔
      ∀ i : Fin NOFILE, (state_init.files i).type ≠ FTYPE_NONE) :=
  ⟨by decide, by decide, (alloc_fd_contract FTYPE_FILE state_init (by decide)).1⟩

/-- The slot written by `set_type` has the new kind. -/
theorem set_type_same (files : Table) (fd : Fin NOFILE) (type : fd_type) :
    (set_type files fd type fd).type = type := by
  simp [set_type]

/-- The assignment `set_type` leaves the other slots alone. -/
theorem set_type_other (files : Table) (fd j : Fin NOFILE) (type : fd_type) (h : j ≠ fd) :
    set_type files fd type j = files j := by
  simp [set_type, Function.update_noteq h]

/-- Writing back the offset a slot already has changes nothing. -/
theorem set_offset_self (files : Table) (fd : Fin NOFILE) :
    set_offset files fd (files fd).file_offset = files := by
  funext j
  by_cases h : j = fd
  · subst h; simp [set_offset]
  · simp [set_offset, Function.update_noteq h]

/-- The function `close(fd)` touches no slot but `fd`. -/
theorem close_other (be : Backend) (s : State) (fd j : Fin NOFILE) (h : j ≠ fd) :
    (close be s fd).2.files j = s.files j := by
  unfold close
  cases (s.files fd).type <;>
    simp [set_type_other _ _ _ _ h, xs_daemon_close, xc_evtchn_close]
  split <;> simp [set_type_other _ _ _ _ h]

/-- The function `close(fd)` leaves an occupied slot `fd` empty, whatever the
backend reports. -/
theorem close_type (be : Backend) (s : State) (fd : Fin NOFILE)
    (h : (s.files fd).type ≠ FTYPE_NONE) :
    ((close be s fd).2.files fd).type = FTYPE_NONE := by
  unfold close
  cases hty : (s.files fd).type <;>
    simp [set_type_same, xs_daemon_close, xc_evtchn_close, hty] at h ⊢
  split <;> simp [set_type_same]

/-- The loop of `close_all_files` from `i` down to 1: slot 0 and the slots
above `i` are untouched, the slots `1 .. i` end empty. -/
theorem close_all_files_loop_spec (be : Backend) :
    ∀ (i : Nat) (s : State), i < NOFILE →
      (∀ j : Fin NOFILE, (j.val = 0 ∨ i < j.val) →
        (close_all_files_loop be i s).files j = s.files j) ∧
      (∀ j : Fin NOFILE, 1 ≤ j.val → j.val ≤ i →
        ((close_all_files_loop be i s).files j).type = FTYPE_NONE) := by
  intro i
  induction i with
  | zero =>
    intro s _
    refine ⟨fun j _ => rfl, ?_⟩
    intro j h1 h0
    omega
  | succ i ih =>
    intro s hi
    have hstep : ∀ j : Fin NOFILE, j.val ≠ i + 1 →
        (if (s.files ⟨i + 1, hi⟩).type ≠ FTYPE_NONE then (close be s ⟨i + 1, hi⟩).2 else s).files j
          = s.files j := by
      intro j hj
      split
      · exact close_other be s _ j (fun h => hj (by rw [h]))
      · rfl
    obtain ⟨ih1, ih2⟩ := ih
      (if (s.files ⟨i + 1, hi⟩).type ≠ FTYPE_NONE then (close be s ⟨i + 1, hi⟩).2 else s)
      (by omega)
    unfold close_all_files_loop
    rw [dif_pos hi]
    constructor
    · intro j hj
      rw [ih1 j (by omega)]
      exact hstep j (by omega)
    · intro j h1 hle
      by_cases hj : j.val = i + 1
      · have hjeq : j = ⟨i + 1, hi⟩ := Fin.ext hj
        rw [ih1 j (by omega)]
        subst hjeq
        by_cases hn : (s.files ⟨i + 1, hi⟩).type = FTYPE_NONE
        · simp [hn]
        · simp only [ne_eq, hn, not_false_eq_true, if_true]
          exact close_type be s _ hn
      · exact ih2 j h1 (by omega)

/-- C2, amended. For every table and every backend, after `close_all_files`
slot 0 is exactly as it was, so that a console in slot 0 is still a console,
and every slot `1 .. 31` is empty: of the three console slots only slot 0 is
kept, the consoles in slots 1 and 2 are closed like any other descriptor. -/
theorem close_all_files_keeps_only_stdin (be : Backend) (s : State) :
    (∀ j : Fin NOFILE, j.val = 0 → (close_all_files be s).files j = s.files j) ∧
    (∀ j : Fin NOFILE, j.val = 0 → (s.files j).type = FTYPE_CONSOLE →
      ((close_all_files be s).files j).type = FTYPE_CONSOLE) ∧
    (∀ j : Fin NOFILE, 1 ≤ j.val → ((close_all_files be s).files j).type = FTYPE_NONE) := by
  have hlt : NOFILE - 1 < NOFILE := by unfold NOFILE; omega
  have hle : ∀ j : Fin NOFILE, j.val ≤ NOFILE - 1 := fun j => by have := j.isLt; omega
  unfold close_all_files
  generalize NOFILE - 1 = top at hlt hle
  obtain ⟨h1, h2⟩ := close_all_files_loop_spec be top s hlt
  refine ⟨fun j hj => h1 j (Or.inl hj), ?_, fun j hj => h2 j hj (hle j)⟩
  intro j hj hc
  rw [h1 j (Or.inl hj)]
  exact hc

/-- Counterexample to C2 as stated: from the initial table (slots 0, 1, 2
consoles), `close_all_files` leaves slots 1 and 2 empty, so the three console
slots are not all still consoles. -/
theorem close_all_files_counterexample :
    ((close_all_files backend_idle state_init).files ⟨1, by decide⟩).type = FTYPE_NONE ∧
    ((close_all_files backend_idle state_init).files ⟨2, by decide⟩).type = FTYPE_NONE ∧
    ¬ (∀ i : Fin NOFILE, i.val < 3 →
        ((close_all_files backend_idle state_init).files i).type = FTYPE_CONSOLE) := by
  have h1 : ((close_all_files backend_idle state_init).files ⟨1, by decide⟩).type = FTYPE_NONE := by
    set_option maxRecDepth 100000 in decide
  refine ⟨h1, by set_option maxRecDepth 100000 in decide, ?_⟩
  intro h
  have := h ⟨1, by decide⟩ (by decide)
  rw [h1] at this
  exact absurd this (by decide)

/-! ## Theorems: dispatch -/

/-- After `read` on a plain file the table is the old one with, at most, a
new offset in slot `fd`. -/
theorem read_file_table (be : Backend) (s : State) (fd : Fin NOFILE) (nbytes : Nat)
    (h : (s.files fd).type = FTYPE_FILE) :
    ∃ off : Int, (read be s fd nbytes).2.files = set_offset s.files fd off := by
  unfold read
  rw [h]
  simp only
  generalize be.fs_read _ _ _ = r
  by_cases h1 : r > 0
  · rw [if_pos h1]
    exact ⟨_, rfl⟩
  · rw [if_neg h1]
    by_cases h2 : r < 0
    · rw [if_pos h2]
      exact ⟨(s.files fd).file_offset, (set_offset_self s.files fd).symm⟩
    · rw [if_neg h2]
      exact ⟨(s.files fd).file_offset, (set_offset_self s.files fd).symm⟩

/-- After `write` on a plain file the table is the old one with, at most, a
new offset in slot `fd`. -/
theorem write_file_table (be : Backend) (s : State) (fd : Fin NOFILE) (nbytes : Nat)
    (h : (s.files fd).type = FTYPE_FILE) :
    ∃ off : Int, (write be s fd nbytes).2.files = set_offset s.files fd off := by
  unfold write
  rw [h]
  simp only
  generalize be.fs_write _ _ _ = r
  by_cases h1 : r > 0
  · rw [if_pos h1]
    exact ⟨_, rfl⟩
  · rw [if_neg h1]
    by_cases h2 : r < 0
    · rw [if_pos h2]
      exact ⟨(s.files fd).file_offset, (set_offset_self s.files fd).symm⟩
    · rw [if_neg h2]
      exact ⟨(s.files fd).file_offset, (set_offset_self s.files fd).symm⟩

/-- The function `dup2(a, b)` with `a` and `b` distinct returns 0, makes slot
`b` a copy of what slot `a` held and leaves every other slot as it was. -/
theorem dup2_files (be : Backend) (s : State) (a b : Fin NOFILE) (hab : a ≠ b) :
    (dup2 be s a b).1 = 0 ∧ (dup2 be s a b).2.files b = s.files a ∧
    ∀ j : Fin NOFILE, j ≠ b → (dup2 be s a b).2.files j = s.files j := by
  have hpre : ∀ j : Fin NOFILE, j ≠ b →
      (if (s.files b).type ≠ FTYPE_NONE then (close be s b).2 else s).files j = s.files j := by
    intro j hj
    split
    · exact close_other be s b j hj
    · rfl
  unfold dup2
  refine ⟨rfl, ?_, ?_⟩
  · simp only [Function.update_same]
    exact hpre a hab
  · intro j hj
    simp only [Function.update_noteq hj]
    exact hpre j hj

/-- C3. For distinct descriptors `a` and `b` with `a` a plain file, whatever
slot `b` held: `dup2(a, b)` returns 0, slot `b` then holds the kind (plain
file), the backend handle and the offset slot `a` held, and slot `a` is
unchanged; after `close(a)`, slot `b` is still a plain file with that handle
and offset; and a following `read` or `write` on `b` leaves a table that
differs from the one before it at most in the offset of slot `b`. -/
theorem dup2_value_copy (be be2 be3 : Backend) (s : State) (a b : Fin NOFILE) (nbytes : Nat)
    (hab : a ≠ b) (ha : (s.files a).type = FTYPE_FILE) :
    (dup2 be s a b).1 = 0 ∧
    ((dup2 be s a b).2.files b).type = FTYPE_FILE ∧
    ((dup2 be s a b).2.files b).file_fd = (s.files a).file_fd ∧
    ((dup2 be s a b).2.files b).file_offset = (s.files a).file_offset ∧
    (dup2 be s a b).2.files a = s.files a ∧
    ((close be2 (dup2 be s a b).2 a).2.files b).type = FTYPE_FILE ∧
    ((close be2 (dup2 be s a b).2 a).2.files b).file_fd = (s.files a).file_fd ∧
    ((close be2 (dup2 be s a b).2 a).2.files b).file_offset = (s.files a).file_offset ∧
    (∃ off : Int, (read be3 (close be2 (dup2 be s a b).2 a).2 b nbytes).2.files =
      set_offset (close be2 (dup2 be s a b).2 a).2.files b off) ∧
    (∃ off : Int, (write be3 (close be2 (dup2 be s a b).2 a).2 b nbytes).2.files =
      set_offset (close be2 (dup2 be s a b).2 a).2.files b off) := by
  obtain ⟨h0, hb, hother⟩ := dup2_files be s a b hab
  have hcb : (close be2 (dup2 be s a b).2 a).2.files b = s.files a := by
    rw [close_other be2 _ a b (Ne.symm hab), hb]
  have hty : ((close be2 (dup2 be s a b).2 a).2.files b).type = FTYPE_FILE := by
    rw [hcb, ha]
  refine ⟨h0, ?_, ?_, ?_, hother a hab, hty, ?_, ?_, ?_, ?_⟩
  · rw [hb, ha]
  · rw [hb]
  · rw [hb]
  · rw [hcb]
  · rw [hcb]
  · exact read_file_table be3 _ b nbytes hty
  · exact write_file_table be3 _ b nbytes hty

/-- Witness of C3: descriptor 3 a plain file, duplicated onto descriptor 4. -/
theorem dup2_value_copy_witness :
    fd3 ≠ fd4 ∧ ((state_with FTYPE_FILE).files fd3).type = FTYPE_FILE ∧
    ((dup2 backend_idle (state_with FTYPE_FILE) fd3 fd4).2.files fd4).type = FTYPE_FILE :=
  ⟨by decide, by decide,
    (dup2_value_copy backend_idle backend_idle backend_idle (state_with FTYPE_FILE) fd3 fd4 10
      (by decide) (by decide)).2.1⟩

/-- C4, amended. For a descriptor whose slot is empty, `read`, `write`,
`fstat`, `fsync`, `ftruncate` and `close` return -1 with `errno` set to
`EBADF` and leave the table unchanged; `lseek` returns -1 and leaves the
table unchanged too, but sets `errno` to `ESPIPE`. -/
theorem empty_slot_errors (be : Backend) (s : State) (fd : Fin NOFILE) (nbytes : Nat)
    (offset whence length : Int) (h : (s.files fd).type = FTYPE_NONE) :
    read be s fd nbytes = (-1, { files := s.files, errno := EBADF }) ∧
    write be s fd nbytes = (-1, { files := s.files, errno := EBADF }) ∧
    (fstat be s fd).1 = -1 ∧ (fstat be s fd).2.1 = { files := s.files, errno := EBADF } ∧
    fsync be s fd = (-1, { files := s.files, errno := EBADF }) ∧
    ftruncate be s fd length = (-1, { files := s.files, errno := EBADF }) ∧
    close be s fd = (-1, { files := s.files, errno := EBADF }) ∧
    lseek be s fd offset whence = (-1, { files := s.files, errno := ESPIPE }) := by
  refine ⟨?_, ?_, ?_, ?_, ?_, ?_, ?_, ?_⟩
  · unfold read; rw [h]
  · unfold write; rw [h]
  · unfold fstat; rw [h]
  · unfold fstat; rw [h]
  · unfold fsync; rw [h]
  · unfold ftruncate; rw [h]
  · unfold close; rw [h]
  · unfold lseek; rw [h]; simp

/-- Witness of C4, amended: slot 3 of the initial table is empty, and `read`
on it fails with `EBADF`. -/
theorem empty_slot_errors_witness :
    (state_init.files fd3).type = FTYPE_NONE ∧
    read backend_idle state_init fd3 10 = (-1, { files := state_init.files, errno := EBADF }) :=
  ⟨by decide, (empty_slot_errors backend_idle state_init fd3 10 0 0 0 (by decide)).1⟩

/-- Counterexample to C4 as stated: on the empty slot 3 of the initial table
`lseek` returns -1 with `errno` equal to `ESPIPE`, which is not `EBADF`. -/
theorem lseek_empty_slot_counterexample :
    (files_init fd3).type = FTYPE_NONE ∧
    (lseek backend_idle state_init fd3 0 SEEK_SET).1 = -1 ∧
    (lseek backend_idle state_init fd3 0 SEEK_SET).2.errno = ESPIPE ∧
    (lseek backend_idle state_init fd3 0 SEEK_SET).2.errno ≠ EBADF := by
  decide

/-- C5. For every descriptor whose slot is occupied by any of the eight
non-empty kinds (console, plain-file, configuration-store, event-channel,
socket, network-tap, block-device, keyboard-device), after `close(fd)` the
slot's kind is empty, whatever the backend teardown reported. For the
configuration-store and event-channel kinds the reset is done by the teardown
`close` hands the descriptor to, modelled from the spec. -/
theorem close_resets_kind (be : Backend) (s : State) (fd : Fin NOFILE)
    (h : (s.files fd).type = FTYPE_CONSOLE ∨ (s.files fd).type = FTYPE_FILE ∨
      (s.files fd).type = FTYPE_XENBUS ∨ (s.files fd).type = FTYPE_EVTCHN ∨
      (s.files fd).type = FTYPE_SOCKET ∨ (s.files fd).type = FTYPE_TAP ∨
      (s.files fd).type = FTYPE_BLK ∨ (s.files fd).type = FTYPE_KBD) :
    ((close be s fd).2.files fd).type = FTYPE_NONE := by
  apply close_type
  rcases h with h | h | h | h | h | h | h | h <;> rw [h] <;> decide

/-- Witness of C5: closing the plain file in slot 3, with a backend whose
`fs_close` fails, empties the slot. -/
theorem close_resets_kind_witness :
    ((state_with FTYPE_FILE).files fd3).type = FTYPE_FILE ∧
    (close (backend_const (-1)) (state_with FTYPE_FILE) fd3).1 = -1 ∧
    ((close (backend_const (-1)) (state_with FTYPE_FILE) fd3).2.files fd3).type = FTYPE_NONE :=
  ⟨by decide, by decide,
    close_resets_kind (backend_const (-1)) (state_with FTYPE_FILE) fd3
      (Or.inr (Or.inl (by decide)))⟩

/-- A value in the range of `int` is converted to itself. -/
theorem to_int_of_fits (x : Int) (h1 : -2147483648 ≤ x) (h2 : x < 2147483648) :
    to_int x = x := by
  unfold to_int
  omega

/-- C7, amended. Over a backend whose first three fetches, asked at offsets
0, 3 and 5, report a page of 3 names with "more", a page of 2 names with
"more", and no entries without "more", six calls of `readdir` on a freshly
opened directory return the 5 names in page order and then `NULL`, and the
backend is asked exactly 3 times in total: the third fetch is the one that
reports the end. -/
theorem readdir_pages_3_2_0 (path n1 n2 n3 n4 n5 : String) (last : Option (List String))
    (imp : FsImport) (hcalls : imp.calls = [])
    (h0 : imp.fs_list 0 path 0 = { entries := some [n1, n2, n3], nbentries := 3, has_more := true })
    (h1 : imp.fs_list 1 path 3 = { entries := some [n4, n5], nbentries := 2, has_more := true })
    (h2 : imp.fs_list 2 path 5 = { entries := last, nbentries := 0, has_more := false }) :
    ∃ (dir : DIR) (imp1 : FsImport),
      readdir_n 6 (opendir path) imp =
        some ([some { d_name := some n1 }, some { d_name := some n2 },
               some { d_name := some n3 }, some { d_name := some n4 },
               some { d_name := some n5 }, none], dir, imp1) ∧
      imp1.calls = [0, 3, 5] ∧ imp1.calls.length = 3 := by
  obtain ⟨fl, calls⟩ := imp
  simp only at hcalls h0 h1 h2
  subst hcalls
  refine ⟨{ name := path, offset := 5, entries := last.map (List.map some),
            entries_freed := false, curentry := -1, nbentries := 0, has_more := false },
          { fs_list := fl, calls := [0, 3, 5] }, ?_, rfl, rfl⟩
  simp [readdir_n, readdir, readdir_release, readdir_current, free_entries, entry_at, opendir,
    h0, h1, h2]

/-- Witness of C7, amended: the scripted import of pages 3, 2, 0 meets the
hypotheses. -/
theorem readdir_pages_3_2_0_witness :
    ∃ (dir : DIR) (imp1 : FsImport),
      readdir_n 6 (opendir "/") import_3_2_0 =
        some ([some { d_name := some "a" }, some { d_name := some "b" },
               some { d_name := some "c" }, some { d_name := some "d" },
               some { d_name := some "e" }, none], dir, imp1) ∧
      imp1.calls = [0, 3, 5] ∧ imp1.calls.length = 3 :=
  readdir_pages_3_2_0 "/" "a" "b" "c" "d" "e" (some []) import_3_2_0 rfl rfl rfl rfl

/-- Counterexample to C7 as stated: over the import whose fetches report pages
of sizes 3, 2 and 0-without-more, the six calls of `readdir` that return the 5
names and then `NULL` make 3 fetches, not 2. -/
theorem readdir_fetch_count_counterexample :
    (readdir_n 6 (opendir "/") import_3_2_0).map (fun r => r.2.2.calls) = some [0, 3, 5] ∧
    (readdir_n 6 (opendir "/") import_3_2_0).map (fun r => r.2.2.calls.length) ≠ some 2 := by
  decide

/-- Setting to `NULL` the entry that follows `pre` released ones gives `pre + 1`
released ones. -/
theorem replicate_none_set (pre : Nat) (x : Option String) (l : List (Option String)) :
    (List.replicate pre none ++ x :: l).set pre none = List.replicate (pre + 1) none ++ l := by
  induction pre with
  | zero => simp
  | succ n ih =>
    simp only [List.replicate_succ, List.cons_append, List.set_cons_succ, ih]

/-- The entry that follows `pre` released ones is at index `pre`. -/
theorem replicate_none_get (pre : Nat) (x : Option String) (l : List (Option String)) :
    (List.replicate pre none ++ x :: l).get? pre = some x := by
  induction pre with
  | zero => simp
  | succ n ih =>
    simp only [List.replicate_succ, List.cons_append, List.get?_cons_succ, ih]

/-- Inside a page `readdir` releases the current name, moves to the next one
and returns it, without a fetch. -/
theorem readdir_in_page_step (name : String) (off : Int) (pre : Nat) (cur r : String)
    (rs : List String) (more : Bool) (imp : FsImport) :
    readdir (dir_in_page name off pre cur (r :: rs) more) imp =
      some (dirent_of r, dir_in_page name off (pre + 1) r rs more, imp) := by
  have hlen : pre < (List.replicate pre (none : Option String) ++
      some cur :: List.map some (r :: rs)).length := by
    simp
  have hnot : ¬ ((pre : Int) + 1 ≥ ((pre + 1 + (r :: rs).length : Nat) : Int)) := by
    simp only [List.length_cons]
    omega
  have hnn : (0 : Int) ≤ (pre : Int) + 1 := by omega
  have htn : ((pre : Int) + 1).toNat = pre + 1 := by omega
  unfold readdir readdir_release dir_in_page
  simp only [ge_iff_le, Int.natCast_nonneg, if_true, Int.toNat_ofNat, hlen, replicate_none_set,
    Bool.false_eq_true, if_false]
  rw [if_neg hnot]
  unfold readdir_current entry_at
  simp only [hnn, if_true, htn, List.map_cons, replicate_none_get, dirent_of,
    Bool.false_eq_true, if_false]
  have hc : (pre : Int) + 1 = ((pre + 1 : Nat) : Int) := by omega
  have hn : ((pre + 1 + (rs.length + 1) : Nat) : Int) = ((pre + 1 + 1 + rs.length : Nat) : Int) := by
    omega
  simp only [List.length_cons]
  rw [hc, hn]

/-- Calling `readdir` `a` times and then `b` times is calling it `a + b`
times. -/
theorem readdir_n_add (a b : Nat) :
    ∀ (dir : DIR) (imp : FsImport) (l1 l2 : List (Option dirent)) (d1 d2 : DIR)
      (i1 i2 : FsImport),
      readdir_n a dir imp = some (l1, d1, i1) → readdir_n b d1 i1 = some (l2, d2, i2) →
      readdir_n (a + b) dir imp = some (l1 ++ l2, d2, i2) := by
  induction a with
  | zero =>
    intro dir imp l1 l2 d1 d2 i1 i2 h1 h2
    simp only [readdir_n, Option.some.injEq, Prod.mk.injEq] at h1
    obtain ⟨rfl, rfl, rfl⟩ := h1
    simpa using h2
  | succ a ih =>
    intro dir imp l1 l2 d1 d2 i1 i2 h1 h2
    rw [Nat.add_right_comm]
    unfold readdir_n at h1 ⊢
    cases hr : readdir dir imp with
    | none => rw [hr] at h1; simp at h1
    | some r1 =>
      obtain ⟨e, dA, iA⟩ := r1
      rw [hr] at h1
      simp only at h1 ⊢
      cases hn : readdir_n a dA iA with
      | none => rw [hn] at h1; simp at h1
      | some r2 =>
        obtain ⟨es, dB, iB⟩ := r2
        rw [hn] at h1
        simp only [Option.some.injEq, Prod.mk.injEq] at h1
        obtain ⟨rfl, rfl, rfl⟩ := h1
        rw [ih dA iA es l2 dB d2 iB i2 hn h2]
        rfl

/-- From a name of a page, as many calls of `readdir` as names are left return
those names in order, without a fetch, and leave the cursor on the last
one. -/
theorem readdir_n_in_page (name : String) (off : Int) (more : Bool) (imp : FsImport) :
    ∀ (rest : List String) (pre : Nat) (cur : String),
      ∃ last : String,
        readdir_n rest.length (dir_in_page name off pre cur rest more) imp =
          some (rest.map dirent_of, dir_in_page name off (pre + rest.length) last [] more, imp) := by
  intro rest
  induction rest with
  | nil => intro pre cur; exact ⟨cur, rfl⟩
  | cons r rs ih =>
    intro pre cur
    obtain ⟨last, hlast⟩ := ih (pre + 1) r
    refine ⟨last, ?_⟩
    simp only [List.length_cons]
    unfold readdir_n
    rw [readdir_in_page_step]
    simp only [hlast, List.map_cons]
    rw [Nat.add_assoc, Nat.add_comm 1 rs.length]

/-- A cursor on the last name of its page is exhausted; the next fetch would
pass the offset of the page plus its count. -/
theorem dir_in_page_exhausted (name : String) (off : Int) (pre : Nat) (cur : String)
    (more : Bool) :
    dir_exhausted (dir_in_page name off pre cur [] more) name more (off + (pre : Int) + 1) := by
  unfold dir_exhausted dir_in_page
  refine ⟨rfl, rfl, ?_, ?_, rfl, ?_⟩
  · simp
  · simp only [List.length_nil]
    omega
  · intro _
    exact ⟨_, rfl, by simp⟩

/-- A freshly opened cursor is exhausted, with "more" set and the next fetch at
offset 0. -/
theorem opendir_exhausted (path : String) : dir_exhausted (opendir path) path true 0 := by
  unfold dir_exhausted opendir
  refine ⟨rfl, rfl, by simp, by simp, rfl, ?_⟩
  intro h
  simp at h

/-- On an exhausted cursor `readdir` releases the last name, adds the page's
count to the offset and, when "more" is set, fetches at that offset. -/
theorem readdir_exhausted (dir : DIR) (imp : FsImport) (path : String) (more : Bool) (o : Int)
    (h : dir_exhausted dir path more o) :
    ∃ (es : Option (List (Option String))) (freed : Bool),
      readdir dir imp =
      (let dir1 : DIR := { name := path, offset := o, entries := es, entries_freed := freed,
                           curentry := -1, nbentries := 0, has_more := more }
       if !more then some (none, dir1, imp)
       else
        let r := imp.fs_list imp.calls.length path o
        let imp1 : FsImport := { imp with calls := imp.calls ++ [o] }
        let dir2 : DIR := { dir1 with entries := r.entries.map (List.map some),
                                      entries_freed := false,
                                      nbentries := r.nbentries, has_more := r.has_more }
        if dir2.entries.isNone || dir2.nbentries = 0 then some (none, dir2, imp1)
        else readdir_current { dir2 with curentry := 0 } imp1) := by
  obtain ⟨name, offset, entries, entries_freed, curentry, nbentries, has_more⟩ := dir
  obtain ⟨h1, h2, h3, h4, hfree, h5⟩ := h
  simp only at h1 h2 h3 h4 hfree h5
  subst h1 h2 h4 hfree
  by_cases hc : curentry ≥ 0
  · obtain ⟨es, hes, hlt⟩ := h5 hc
    subst hes
    refine ⟨some (es.set curentry.toNat none), true, ?_⟩
    unfold readdir readdir_release free_entries
    simp only [hc, if_true, hlt, Bool.false_eq_true, if_false]
    rw [if_pos (by omega)]
  · cases entries with
    | none =>
      refine ⟨none, false, ?_⟩
      unfold readdir readdir_release free_entries
      simp only [hc, if_false]
      rw [if_pos (by omega)]
    | some es =>
      refine ⟨some es, true, ?_⟩
      unfold readdir readdir_release free_entries
      simp only [hc, if_false, Bool.false_eq_true]
      rw [if_pos (by omega)]

/-- On an exhausted cursor with "more" set, when the fetch hands back a
non-empty page, `readdir` passes the running offset, returns the first name
and stands on it. -/
theorem readdir_fetch_page (dir : DIR) (imp : FsImport) (path : String) (o : Int)
    (n : String) (ns : List String) (more : Bool)
    (h : dir_exhausted dir path true o)
    (hf : imp.fs_list imp.calls.length path o = page_of (n :: ns) more) :
    readdir dir imp =
      some (dirent_of n, dir_in_page path o 0 n ns more,
        { imp with calls := imp.calls ++ [o] }) := by
  obtain ⟨es, freed, hes⟩ := readdir_exhausted dir imp path true o h
  rw [hes]
  have hne : ¬ (((ns.length + 1 : Nat) : Int) = 0) := by omega
  simp only [hf, page_of, Bool.not_true, Bool.false_eq_true, if_false, Option.map_some',
    Option.isNone_some, Bool.false_or, decide_eq_true_eq, List.length_cons, hne]
  unfold readdir_current entry_at dir_in_page dirent_of
  simp only [le_refl, if_true, Int.toNat_zero, List.map_cons, List.get?_cons_zero,
    List.replicate_zero, List.nil_append, Nat.cast_zero, Bool.false_eq_true, if_false]
  have hn : ((ns.length + 1 : Nat) : Int) = ((0 + 1 + ns.length : Nat) : Int) := by omega
  rw [hn]

/-- On an exhausted cursor with "more" set, when the fetch hands back no page
or zero entries, `readdir` returns `NULL` after that one fetch. -/
theorem readdir_fetch_end (dir : DIR) (imp : FsImport) (path : String) (o : Int)
    (t : fs_list_result)
    (h : dir_exhausted dir path true o)
    (hf : imp.fs_list imp.calls.length path o = t)
    (ht : t.entries = none ∨ t.nbentries = 0) :
    ∃ dir1, readdir dir imp = some (none, dir1, { imp with calls := imp.calls ++ [o] }) := by
  obtain ⟨es, freed, hes⟩ := readdir_exhausted dir imp path true o h
  rw [hes]
  simp only [hf, Bool.not_true, Bool.false_eq_true, if_false]
  rw [if_pos]
  · exact ⟨_, rfl⟩
  · rcases ht with ht | ht
    · simp [ht]
    · simp [ht]

/-- On an exhausted cursor whose page had "more" unset, `readdir` returns `NULL`
without a fetch. -/
theorem readdir_no_more (dir : DIR) (imp : FsImport) (path : String) (o : Int)
    (h : dir_exhausted dir path false o) :
    ∃ dir1, readdir dir imp = some (none, dir1, imp) ∧
      dir1.curentry = -1 ∧ dir1.nbentries = 0 ∧ dir1.has_more = false := by
  obtain ⟨es, freed, hes⟩ := readdir_exhausted dir imp path false o h
  rw [hes]
  simp only [Bool.not_false, if_true]
  exact ⟨_, rfl, rfl, rfl, rfl⟩

/-- From an exhausted cursor with "more" set, as many calls of `readdir` as the
next page has names make one fetch, at the running offset, and return the
names of that page in order. -/
theorem readdir_n_full_page (dir : DIR) (imp : FsImport) (path : String) (o : Int)
    (p : List String) (more : Bool) (hp : p ≠ [])
    (h : dir_exhausted dir path true o)
    (hf : imp.fs_list imp.calls.length path o = page_of p more) :
    ∃ dir1, readdir_n p.length dir imp =
        some (p.map dirent_of, dir1, { imp with calls := imp.calls ++ [o] }) ∧
      dir_exhausted dir1 path more (o + (p.length : Int)) := by
  cases p with
  | nil => exact absurd rfl hp
  | cons n ns =>
    obtain ⟨last, hlast⟩ := readdir_n_in_page path o more
      { imp with calls := imp.calls ++ [o] } ns 0 n
    refine ⟨dir_in_page path o (0 + ns.length) last [] more, ?_, ?_⟩
    · simp only [List.length_cons]
      unfold readdir_n
      rw [readdir_fetch_page dir imp path o n ns more h hf]
      simp only [hlast, List.map_cons]
    · have := dir_in_page_exhausted path o (0 + ns.length) last more
      have hcast : o + ((0 + ns.length : Nat) : Int) + 1 = o + ((n :: ns).length : Int) := by
        simp only [List.length_cons]
        omega
      rw [hcast] at this
      exact this

/-- From an exhausted cursor with "more" set, over a backend that serves the
non-empty pages `pages`, the calls of `readdir` return the names of the pages
concatenated, with one fetch a page at the running offsets. -/
theorem readdir_n_pages (path : String) (fl : Nat → String → Int → fs_list_result) :
    ∀ (pages : List (List String)) (dir : DIR) (calls : List Int) (o : Int),
      dir_exhausted dir path true o →
      (∀ p ∈ pages, p ≠ []) →
      fs_list_serves fl path calls.length o pages →
      ∃ dir1,
        readdir_n pages.flatten.length dir { fs_list := fl, calls := calls } =
          some (pages.flatten.map dirent_of, dir1,
            { fs_list := fl, calls := calls ++ page_offsets o pages }) ∧
        dir_exhausted dir1 path true (o + (pages.flatten.length : Int)) := by
  intro pages
  induction pages with
  | nil =>
    intro dir calls o h _ _
    refine ⟨dir, ?_, ?_⟩
    · simp [readdir_n, page_offsets]
    · simpa using h
  | cons p ps ih =>
    intro dir calls o h hne hs
    obtain ⟨hs1, hs2⟩ := hs
    obtain ⟨d1, hd1, he1⟩ := readdir_n_full_page dir { fs_list := fl, calls := calls } path o p
      true (hne p (List.mem_cons_self _ _)) h hs1
    have hs2' : fs_list_serves fl path (calls ++ [o]).length (o + (p.length : Int)) ps := by
      simpa using hs2
    obtain ⟨d2, hd2, he2⟩ := ih d1 (calls ++ [o]) (o + (p.length : Int)) he1
      (fun q hq => hne q (List.mem_cons_of_mem _ hq)) hs2'
    refine ⟨d2, ?_, ?_⟩
    · simp only [List.flatten_cons, List.length_append, List.map_append, page_offsets]
      have := readdir_n_add p.length ps.flatten.length dir { fs_list := fl, calls := calls }
        _ _ _ _ _ _ hd1 hd2
      rw [this]
      simp
    · simp only [List.flatten_cons, List.length_append]
      have hcast : o + ((p.length + ps.flatten.length : Nat) : Int) =
          o + (p.length : Int) + (ps.flatten.length : Int) := by omega
      rw [hcast]
      exact he2

/-- One offset a page. -/
theorem page_offsets_length : ∀ (pages : List (List String)) (o : Int),
    (page_offsets o pages).length = pages.length := by
  intro pages
  induction pages with
  | nil => intro o; rfl
  | cons p ps ih => intro o; simp [page_offsets, ih]

/-- The entries before the end are all the entries. -/
theorem entries_before_all (pages : List (List String)) :
    entries_before pages pages.length = (pages.flatten.length : Int) := by
  unfold entries_before
  rw [List.take_length, List.length_flatten]

/-- The offset of page `i` is the first offset plus the number of entries in
the pages before it. -/
theorem page_offsets_eq : ∀ (pages : List (List String)) (o : Int),
    page_offsets o pages = (List.range pages.length).map (fun i => o + entries_before pages i) := by
  intro pages
  induction pages with
  | nil => intro o; rfl
  | cons p ps ih =>
    intro o
    rw [page_offsets, ih, List.length_cons, List.range_succ_eq_map, List.map_cons, List.map_map]
    congr 1
    · simp [entries_before]
    · apply List.map_congr_left
      intro i _
      simp only [Function.comp, entries_before, List.take_succ_cons, List.map_cons, List.sum_cons]
      push_cast
      ring

/-- The offsets of the fetches of `pages` and of the fetch after them: fetch
`i` is asked at the number of entries in the first `i` pages. -/
theorem fetch_offsets_eq (pages : List (List String)) :
    page_offsets 0 pages ++ [(pages.flatten.length : Int)] =
      (List.range (pages.length + 1)).map (entries_before pages) := by
  rw [List.range_succ, List.map_append, page_offsets_eq, List.map_singleton, entries_before_all]
  congr 1
  apply List.map_congr_left
  intro i _
  simp

/-- One call of `readdir`. -/
theorem readdir_n_one (dir dir1 : DIR) (imp imp1 : FsImport) (d : Option dirent)
    (h : readdir dir imp = some (d, dir1, imp1)) :
    readdir_n 1 dir imp = some ([d], dir1, imp1) := by
  unfold readdir_n
  rw [h]
  rfl

/-- C14. Over every backend that answers the successive fetches of a freshly
opened cursor with the non-empty pages `pages` (each with "more" set) and then
with `last`, successive `readdir` calls return the names of the pages
concatenated in fetch order, each exactly once, and fetch `i` is asked at the
offset equal to the number of entries in the `i` pages fetched before it.
When `last` is no page or has zero entries, the next call returns `NULL` at
that fetch. When `last` is a non-empty page with "more" unset, its names
follow and the call after them returns `NULL` without a fetch. -/
theorem readdir_enumerates_pages (path : String) (imp : FsImport)
    (pages : List (List String)) (last : fs_list_result)
    (hcalls : imp.calls = [])
    (hne : ∀ p ∈ pages, p ≠ [])
    (hserve : fs_list_serves imp.fs_list path 0 0 pages)
    (hlast : imp.fs_list pages.length path (entries_before pages pages.length) = last) :
    ((last.entries = none ∨ last.nbentries = 0) →
      ∃ dir1, readdir_n (pages.flatten.length + 1) (opendir path) imp =
        some (pages.flatten.map dirent_of ++ [none], dir1,
          { imp with calls := (List.range (pages.length + 1)).map (entries_before pages) })) ∧
    (∀ names : List String, names ≠ [] → last = page_of names false →
      ∃ dir1, readdir_n (pages.flatten.length + names.length + 1) (opendir path) imp =
          some ((pages.flatten ++ names).map dirent_of ++ [none], dir1,
            { imp with
              calls := (List.range (pages.length + 1)).map (entries_before pages) })) := by
  obtain ⟨fl, calls⟩ := imp
  simp only at hcalls hserve hlast
  subst hcalls
  obtain ⟨d1, hd1, he1⟩ := readdir_n_pages path fl pages (opendir path) [] 0
    (opendir_exhausted path) hne hserve
  simp only [List.nil_append, Int.zero_add] at hd1 he1
  have hfetch : ({ fs_list := fl, calls := page_offsets 0 pages } : FsImport).fs_list
      ({ fs_list := fl, calls := page_offsets 0 pages } : FsImport).calls.length path
      (pages.flatten.length : Int) = last := by
    simp only [page_offsets_length]
    rw [← entries_before_all]
    exact hlast
  constructor
  · intro ht
    obtain ⟨d2, hd2⟩ := readdir_fetch_end d1 { fs_list := fl, calls := page_offsets 0 pages }
      path _ last he1 hfetch ht
    refine ⟨d2, ?_⟩
    rw [readdir_n_add _ 1 _ _ _ _ _ _ _ _ hd1 (readdir_n_one _ _ _ _ _ hd2)]
    simp only [fetch_offsets_eq]
  · intro names hnames hpage
    rw [hpage] at hfetch
    obtain ⟨d2, hd2, he2⟩ := readdir_n_full_page d1
      { fs_list := fl, calls := page_offsets 0 pages } path _ names false hnames he1 hfetch
    obtain ⟨d3, hd3, hc3, hn3, hm3⟩ := readdir_no_more d2
      { fs_list := fl, calls := page_offsets 0 pages ++ [(pages.flatten.length : Int)] }
      path _ he2
    refine ⟨d3, ?_⟩
    rw [readdir_n_add _ 1 _ _ _ _ _ _ _ _
      (readdir_n_add _ _ _ _ _ _ _ _ _ _ hd1 hd2) (readdir_n_one _ _ _ _ _ hd3)]
    simp only [fetch_offsets_eq, List.map_append]

/-- Witness of C14: the scripted import that reports pages of sizes 3, 2
and 0. -/
theorem readdir_enumerates_pages_witness :
    fs_list_serves import_3_2_0.fs_list "/" 0 0 [["a", "b", "c"], ["d", "e"]] ∧
    ∃ dir1, readdir_n ([["a", "b", "c"], ["d", "e"]].flatten.length + 1) (opendir "/")
        import_3_2_0 =
      some ([["a", "b", "c"], ["d", "e"]].flatten.map dirent_of ++ [none], dir1,
        { import_3_2_0 with
          calls := (List.range 3).map (entries_before [["a", "b", "c"], ["d", "e"]]) }) :=
  ⟨⟨rfl, rfl, trivial⟩,
    (readdir_enumerates_pages "/" import_3_2_0 [["a", "b", "c"], ["d", "e"]]
      { entries := some [], nbentries := 0, has_more := false } rfl (by decide)
      ⟨rfl, rfl, trivial⟩ rfl).1 (Or.inr rfl)⟩

/-- After the end of an enumeration the cursor still holds the pointer to the
page it released: over the scripted import of pages 3, 2, 0 the seventh call
of `readdir` releases the empty last page and returns `NULL`, and the eighth
call releases the same page again, which is undefined behaviour. -/
theorem readdir_after_end_releases_twice :
    (readdir_n 7 (opendir "/") import_3_2_0).isSome = true ∧
    (readdir_n 8 (opendir "/") import_3_2_0).isNone = true := by
  decide

/-! ## Theorems: select -/

/-- Counting up to `k + 1` is counting up to `k`, plus one when `k` is a
member. -/
theorem count_set_succ (k : Nat) (set : fd_set) :
    count_set (k + 1) set = count_set k set + (if set k = true then 1 else 0) := by
  unfold count_set FD_ISSET
  rw [List.range_succ, List.countP_append]
  simp [List.countP_cons]

/-- Sets that agree below `k` have the same count up to `k`. -/
theorem count_set_congr (k : Nat) (s t : fd_set) (h : ∀ j, j < k → s j = t j) :
    count_set k s = count_set k t := by
  induction k with
  | zero => simp [count_set]
  | succ k ih =>
    rw [count_set_succ, count_set_succ, ih (fun j hj => h j (by omega)), h k (by omega)]

/-- Clearing `i` leaves the other members alone. -/
theorem FD_CLR_other (i j : Nat) (s : fd_set) (h : j ≠ i) : FD_CLR i s j = s j := by
  simp [FD_CLR, Function.update_noteq h]

/-- After clearing `i`, it is not a member. -/
theorem FD_CLR_same (i : Nat) (s : fd_set) : FD_CLR i s i = false := by
  simp [FD_CLR]

/-- The read-side statement touches bit `i` of the read set only and adds to
`n` exactly when that bit stays set. -/
theorem poll_read_spec (pending : Bool) (i : Nat) (st : PollState) :
    (∀ j, j ≠ i → (poll_read pending i st).readfds j = st.readfds j) ∧
    (poll_read pending i st).writefds = st.writefds ∧
    (poll_read pending i st).exceptfds = st.exceptfds ∧
    (poll_read pending i st).n =
      st.n + (if (poll_read pending i st).readfds i = true then 1 else 0) := by
  unfold poll_read FD_ISSET
  by_cases h1 : st.readfds i = true
  · by_cases h2 : pending = true
    · simp [h1, h2]
    · simp [h1, h2, FD_CLR_same]
      intro j hj
      exact FD_CLR_other i j _ hj
  · simp [h1]

/-- The write-side statement touches bit `i` of the write set only and adds to
`n` exactly when that bit stays set. -/
theorem poll_write_spec (pending : Bool) (i : Nat) (st : PollState) :
    (∀ j, j ≠ i → (poll_write pending i st).writefds j = st.writefds j) ∧
    (poll_write pending i st).readfds = st.readfds ∧
    (poll_write pending i st).exceptfds = st.exceptfds ∧
    (poll_write pending i st).n =
      st.n + (if (poll_write pending i st).writefds i = true then 1 else 0) := by
  unfold poll_write FD_ISSET
  by_cases h1 : st.writefds i = true
  · by_cases h2 : pending = true
    · simp [h1, h2]
    · simp [h1, h2, FD_CLR_same]
      intro j hj
      exact FD_CLR_other i j _ hj
  · simp [h1]

/-- The exceptional-side statement touches bit `i` of that set only and adds
to `n` exactly when that bit stays set. -/
theorem poll_except_spec (pending : Bool) (i : Nat) (st : PollState) :
    (∀ j, j ≠ i → (poll_except pending i st).exceptfds j = st.exceptfds j) ∧
    (poll_except pending i st).readfds = st.readfds ∧
    (poll_except pending i st).writefds = st.writefds ∧
    (poll_except pending i st).n =
      st.n + (if (poll_except pending i st).exceptfds i = true then 1 else 0) := by
  unfold poll_except FD_ISSET
  by_cases h1 : st.exceptfds i = true
  · by_cases h2 : pending = true
    · simp [h1, h2]
    · simp [h1, h2, FD_CLR_same]
      intro j hj
      exact FD_CLR_other i j _ hj
  · simp [h1]

/-- One iteration of the second loop touches bit `i` of each set only, and
adds to `n` the number of sets in which bit `i` stays set. -/
theorem poll_body_spec (f : file) (sock : lwip_select_result) (i : Nat) (st : PollState) :
    (∀ j, j ≠ i → (poll_body f sock i st).readfds j = st.readfds j) ∧
    (∀ j, j ≠ i → (poll_body f sock i st).writefds j = st.writefds j) ∧
    (∀ j, j ≠ i → (poll_body f sock i st).exceptfds j = st.exceptfds j) ∧
    (poll_body f sock i st).n =
      st.n + (if (poll_body f sock i st).readfds i = true then 1 else 0)
        + (if (poll_body f sock i st).writefds i = true then 1 else 0)
        + (if (poll_body f sock i st).exceptfds i = true then 1 else 0) := by
  have hchan : ∀ pending : Bool,
      (∀ j, j ≠ i → ({ poll_read pending i st with
          writefds := FD_CLR i (poll_read pending i st).writefds,
          exceptfds := FD_CLR i (poll_read pending i st).exceptfds } : PollState).readfds j
            = st.readfds j) ∧
      (∀ j, j ≠ i → ({ poll_read pending i st with
          writefds := FD_CLR i (poll_read pending i st).writefds,
          exceptfds := FD_CLR i (poll_read pending i st).exceptfds } : PollState).writefds j
            = st.writefds j) ∧
      (∀ j, j ≠ i → ({ poll_read pending i st with
          writefds := FD_CLR i (poll_read pending i st).writefds,
          exceptfds := FD_CLR i (poll_read pending i st).exceptfds } : PollState).exceptfds j
            = st.exceptfds j) ∧
      ({ poll_read pending i st with
          writefds := FD_CLR i (poll_read pending i st).writefds,
          exceptfds := FD_CLR i (poll_read pending i st).exceptfds } : PollState).n =
        st.n + (if ({ poll_read pending i st with
          writefds := FD_CLR i (poll_read pending i st).writefds,
          exceptfds := FD_CLR i (poll_read pending i st).exceptfds } : PollState).readfds i = true
            then 1 else 0)
        + (if ({ poll_read pending i st with
          writefds := FD_CLR i (poll_read pending i st).writefds,
          exceptfds := FD_CLR i (poll_read pending i st).exceptfds } : PollState).writefds i = true
            then 1 else 0)
        + (if ({ poll_read pending i st with
          writefds := FD_CLR i (poll_read pending i st).writefds,
          exceptfds := FD_CLR i (poll_read pending i st).exceptfds } : PollState).exceptfds i = true
            then 1 else 0) := by
    intro pending
    obtain ⟨hr, hw, he, hn⟩ := poll_read_spec pending i st
    refine ⟨hr, ?_, ?_, ?_⟩
    · intro j hj
      simp only [hw]
      exact FD_CLR_other i j _ hj
    · intro j hj
      simp only [he]
      exact FD_CLR_other i j _ hj
    · simp only [FD_CLR_same, hn]
      simp
  unfold poll_body
  cases f.type
  case FTYPE_XENBUS => exact hchan _
  case FTYPE_EVTCHN => exact hchan _
  case FTYPE_TAP => exact hchan _
  case FTYPE_BLK => exact hchan _
  case FTYPE_KBD => exact hchan _
  case FTYPE_NONE =>
    simp only [FD_CLR_same]
    exact ⟨fun j hj => FD_CLR_other i j _ hj, fun j hj => FD_CLR_other i j _ hj,
      fun j hj => FD_CLR_other i j _ hj, by simp⟩
  case FTYPE_FILE =>
    simp only [FD_CLR_same]
    exact ⟨fun j hj => FD_CLR_other i j _ hj, fun j hj => FD_CLR_other i j _ hj,
      fun j hj => FD_CLR_other i j _ hj, by simp⟩
  case FTYPE_CONSOLE =>
    refine ⟨fun j hj => FD_CLR_other i j _ hj, fun j hj => rfl,
      fun j hj => FD_CLR_other i j _ hj, ?_⟩
    simp only [FD_CLR_same, FD_ISSET]
    by_cases hw : st.writefds i = true <;> simp [hw]
  case FTYPE_SOCKET =>
    simp only
    generalize (sock.sock_n != 0 && FD_ISSET f.socket_fd sock.readfds) = c1
    generalize (sock.sock_n != 0 && FD_ISSET f.socket_fd sock.writefds) = c2
    generalize (sock.sock_n != 0 && FD_ISSET f.socket_fd sock.exceptfds) = c3
    obtain ⟨ar, aw, ae, an⟩ := poll_read_spec c1 i st
    obtain ⟨bw, br, be, bn⟩ := poll_write_spec c2 i (poll_read c1 i st)
    obtain ⟨ce, cr, cw, cn⟩ := poll_except_spec c3 i (poll_write c2 i (poll_read c1 i st))
    refine ⟨?_, ?_, ?_, ?_⟩
    · intro j hj
      rw [cr, br]
      exact ar j hj
    · intro j hj
      rw [cw, bw j hj, aw]
    · intro j hj
      rw [ce j hj, be, ae]
    · rw [cn, bn, an, cr, br, cw]

/-- The first loop of `select_poll` stays inside the table when `nfds` does. -/
theorem sock_loop_some (files : Table) (r w e : fd_set) :
    ∀ nfds : Nat, nfds ≤ NOFILE → ∃ ss, sock_loop files r w e nfds = some ss := by
  intro nfds
  induction nfds with
  | zero => intro _; exact ⟨_, rfl⟩
  | succ k ih =>
    intro hk
    obtain ⟨ss, hss⟩ := ih (by omega)
    have hlt : k < NOFILE := by omega
    unfold sock_loop
    rw [hss]
    simp only [dif_pos hlt]
    exact ⟨_, rfl⟩

/-- The second loop of `select_poll`, run for `nfds` iterations inside the
table, adds to `n` the number of memberships below `nfds` left in the three
sets. -/
theorem poll_loop_count (files : Table) (sock : lwip_select_result) (st : PollState) :
    ∀ nfds : Nat, nfds ≤ NOFILE →
      ∃ p, poll_loop files sock st nfds = some p ∧
        p.n = st.n + (count_set nfds p.readfds : Int) + (count_set nfds p.writefds : Int)
          + (count_set nfds p.exceptfds : Int) := by
  intro nfds
  induction nfds with
  | zero =>
    intro _
    exact ⟨st, rfl, by simp [count_set]⟩
  | succ k ih =>
    intro hk
    obtain ⟨p, hp, hn⟩ := ih (by omega)
    have hlt : k < NOFILE := by omega
    obtain ⟨hr, hw, he, hb⟩ := poll_body_spec (files ⟨k, hlt⟩) sock k p
    refine ⟨poll_body (files ⟨k, hlt⟩) sock k p, ?_, ?_⟩
    · unfold poll_loop
      rw [hp]
      simp only [dif_pos hlt]
    · rw [count_set_succ, count_set_succ, count_set_succ,
        count_set_congr k _ p.readfds (fun j hj => hr j (by omega)),
        count_set_congr k _ p.writefds (fun j hj => hw j (by omega)),
        count_set_congr k _ p.exceptfds (fun j hj => he j (by omega)),
        hb, hn]
      push_cast
      ring

/-- C9. For every table, every `nfds` not above the table's capacity and
every three input sets, `select_poll` returns, and the value it returns is the
number of (descriptor, set) memberships with descriptor in `0 .. nfds-1` that
remain set in the output read, write and exceptional sets. -/
theorem select_poll_count (be : Backend) (files : Table) (errno : Int) (nfds : Nat)
    (readfds writefds exceptfds : fd_set) (h : nfds ≤ NOFILE) :
    ∃ p, select_poll be files errno nfds readfds writefds exceptfds = some p ∧
      p.n = (count_set nfds p.readfds : Int) + (count_set nfds p.writefds : Int)
        + (count_set nfds p.exceptfds : Int) := by
  obtain ⟨ss, hss⟩ := sock_loop_some files readfds writefds exceptfds nfds h
  unfold select_poll
  rw [hss]
  simp only
  obtain ⟨p, hp, hn⟩ := poll_loop_count files
    (be.lwip_select ss.sock_nfds ss.sock_readfds ss.sock_writefds ss.sock_exceptfds errno)
    { n := 0, readfds := readfds, writefds := writefds, exceptfds := exceptfds,
      errno := (be.lwip_select ss.sock_nfds ss.sock_readfds ss.sock_writefds
        ss.sock_exceptfds errno).errno } nfds h
  exact ⟨p, hp, by rw [hn]; simp⟩

/-- Witness of C9: the initial table polled for descriptors 0 to 3 in all
three sets. -/
theorem select_poll_count_witness :
    4 ≤ NOFILE ∧
    ∃ p, select_poll backend_idle files_init 0 4 (fun _ => true) (fun _ => true)
        (fun _ => true) = some p ∧
      p.n = (count_set 4 p.readfds : Int) + (count_set 4 p.writefds : Int)
        + (count_set 4 p.exceptfds : Int) :=
  ⟨by decide, select_poll_count backend_idle files_init 0 4 _ _ _ (by decide)⟩

/-- Inside the table, `select_poll` returns. -/
theorem select_poll_some (be : Backend) (files : Table) (errno : Int) (nfds : Nat)
    (readfds writefds exceptfds : fd_set) (h : nfds ≤ NOFILE) :
    ∃ p, select_poll be files errno nfds readfds writefds exceptfds = some p := by
  obtain ⟨ss, hss⟩ := sock_loop_some files readfds writefds exceptfds nfds h
  unfold select_poll
  rw [hss]
  simp only
  obtain ⟨p, hp, -⟩ := poll_loop_count files
    (be.lwip_select ss.sock_nfds ss.sock_readfds ss.sock_writefds ss.sock_exceptfds errno)
    { n := 0, readfds := readfds, writefds := writefds, exceptfds := exceptfds,
      errno := (be.lwip_select ss.sock_nfds ss.sock_readfds ss.sock_writefds
        ss.sock_exceptfds errno).errno } nfds h
  exact ⟨p, hp⟩

/-- Unlinking the five waiters from a queue that one of them was put on, and
that held none of them before, gives the queue back. -/
theorem erase_waiters (l : List waiter) (w : waiter) (hw : w ∈ [w1, w2, w3, w4, w5])
    (h1 : w1 ∉ l) (h2 : w2 ∉ l) (h3 : w3 ∉ l) (h4 : w4 ∉ l) (h5 : w5 ∉ l) :
    (((((w :: l).erase w1).erase w2).erase w3).erase w4).erase w5 = l := by
  simp only [w1, w2, w3, w4, w5] at *
  simp only [List.mem_cons, List.mem_singleton, List.not_mem_nil, or_false] at hw
  rcases hw with h | h | h | h | h <;> subst h <;>
    simp [List.erase_cons, List.erase_of_not_mem, h1, h2, h3, h4, h5]

/-- The label `out:` undoes the five registrations made at entry, when none of
the five waiters was registered before. -/
theorem select_out_fresh (q : WaitQueues)
    (hfresh : ∀ w ∈ [w1, w2, w3, w4, w5],
      w ∉ q.netfront_queue ∧ w ∉ q.event_queue ∧ w ∉ q.blkfront_queue ∧
      w ∉ q.xenbus_watch_queue ∧ w ∉ q.kbdfront_queue) :
    select_out { netfront_queue := add_waiter w1 q.netfront_queue,
                 event_queue := add_waiter w2 q.event_queue,
                 blkfront_queue := add_waiter w3 q.blkfront_queue,
                 xenbus_watch_queue := add_waiter w4 q.xenbus_watch_queue,
                 kbdfront_queue := add_waiter w5 q.kbdfront_queue } = q := by
  obtain ⟨a1, b1, c1, d1, e1⟩ := hfresh w1 (by simp)
  obtain ⟨a2, b2, c2, d2, e2⟩ := hfresh w2 (by simp)
  obtain ⟨a3, b3, c3, d3, e3⟩ := hfresh w3 (by simp)
  obtain ⟨a4, b4, c4, d4, e4⟩ := hfresh w4 (by simp)
  obtain ⟨a5, b5, c5, d5, e5⟩ := hfresh w5 (by simp)
  obtain ⟨nq, eq, bq, xq, kq⟩ := q
  simp only at a1 b1 c1 d1 e1 a2 b2 c2 d2 e2 a3 b3 c3 d3 e3 a4 b4 c4 d4 e4 a5 b5 c5 d5 e5
  simp only [select_out, remove_waiter, add_waiter]
  rw [erase_waiters nq w1 (by simp) a1 a2 a3 a4 a5, erase_waiters eq w2 (by simp) b1 b2 b3 b4 b5,
    erase_waiters bq w3 (by simp) c1 c2 c3 c4 c5, erase_waiters xq w4 (by simp) d1 d2 d3 d4 d5,
    erase_waiters kq w5 (by simp) e1 e2 e3 e4 e5]

/-- C10. Called on the main thread with `nfds` inside the table and none of
its five waiters registered yet, `select` returns, and on whichever path it
does (ready on the first poll, timeout already elapsed, ready after
resumption, interrupted with `EINTR`) the five wait queues are exactly as
they were before the call: each of the five registrations added at entry has
been removed, and none of the five waiters is left on any queue. -/
theorem select_removes_waiters (be : Backend) (sc : Sched) (files : Table) (errno : Int)
    (q : WaitQueues) (th : thread) (a : SelectArgs)
    (hmain : sc.on_main_thread = true) (hnfds : a.nfds ≤ NOFILE)
    (hfresh : ∀ w ∈ [w1, w2, w3, w4, w5],
      w ∉ q.netfront_queue ∧ w ∉ q.event_queue ∧ w ∉ q.blkfront_queue ∧
      w ∉ q.xenbus_watch_queue ∧ w ∉ q.kbdfront_queue) :
    ∃ res, select be sc files errno q th a = some res ∧ res.queues = q ∧
      ∀ w ∈ [w1, w2, w3, w4, w5],
        w ∉ res.queues.netfront_queue ∧ w ∉ res.queues.event_queue ∧
        w ∉ res.queues.blkfront_queue ∧ w ∉ res.queues.xenbus_watch_queue ∧
        w ∉ res.queues.kbdfront_queue := by
  have hout := select_out_fresh q hfresh
  obtain ⟨p, hp⟩ := select_poll_some be files errno a.nfds (a.readfds.getD FD_ZERO)
    (a.writefds.getD FD_ZERO) (a.exceptfds.getD FD_ZERO) hnfds
  obtain ⟨p2, hp2⟩ := select_poll_some sc.be_resumed sc.files_resumed p.errno a.nfds
    (a.readfds.getD FD_ZERO) (a.writefds.getD FD_ZERO) (a.exceptfds.getD FD_ZERO) hnfds
  unfold select
  simp only [hmain, Bool.not_true, Bool.false_eq_true, if_false, hp, hp2]
  have hfin : ∀ res : SelectResult, res.queues = q →
      res.queues = q ∧ ∀ w ∈ [w1, w2, w3, w4, w5],
        w ∉ res.queues.netfront_queue ∧ w ∉ res.queues.event_queue ∧
        w ∉ res.queues.blkfront_queue ∧ w ∉ res.queues.xenbus_watch_queue ∧
        w ∉ res.queues.kbdfront_queue := by
    intro res hq
    rw [hq]
    exact ⟨rfl, hfresh⟩
  by_cases h1 : p.n ≠ 0
  · rw [if_pos h1]
    exact ⟨_, rfl, hfin _ hout⟩
  · rw [if_neg h1]
    split
    · exact ⟨_, rfl, hfin _ hout⟩
    · by_cases h3 : p2.n ≠ 0
      · rw [if_pos h3]
        exact ⟨_, rfl, hfin _ hout⟩
      · rw [if_neg h3]
        exact ⟨_, rfl, hfin _ hout⟩

/-- Witness of C10: a call on the main thread with empty wait queues. -/
theorem select_removes_waiters_witness :
    sched_quiet.on_main_thread = true ∧ select_stdin_100ms.nfds ≤ NOFILE ∧
    ∃ res, select backend_idle sched_quiet files_init 0 queues_empty thread_main
        select_stdin_100ms = some res ∧ res.queues = queues_empty ∧
      ∀ w ∈ [w1, w2, w3, w4, w5],
        w ∉ res.queues.netfront_queue ∧ w ∉ res.queues.event_queue ∧
        w ∉ res.queues.blkfront_queue ∧ w ∉ res.queues.xenbus_watch_queue ∧
        w ∉ res.queues.kbdfront_queue :=
  ⟨rfl, by decide,
    select_removes_waiters backend_idle sched_quiet files_init 0 queues_empty thread_main
      select_stdin_100ms rfl (by decide) (by decide)⟩

/-- C8, amended. When `select` is given a timeout whose deadline has not
passed at the test after the first poll, the first poll finds nothing ready,
the thread is suspended and the poll after resumption finds nothing ready
either (as when only the deadline woke the thread), `select` returns -1 with
`errno` set to `EINTR`, and the caller's three sets and the timeout are left
as they were passed, not cleared. -/
theorem select_sleep_then_nothing_ready (be : Backend) (sc : Sched) (files : Table)
    (errno : Int) (q : WaitQueues) (th : thread) (a : SelectArgs) (tv : timeval)
    (p p2 : PollState)
    (hmain : sc.on_main_thread = true)
    (htv : a.timeout = some tv)
    (hnot : sc.NOW_check < sc.NOW_start + SECONDS tv.tv_sec + tv.tv_usec * 1000)
    (hp : select_poll be files errno a.nfds (a.readfds.getD FD_ZERO)
      (a.writefds.getD FD_ZERO) (a.exceptfds.getD FD_ZERO) = some p)
    (hn : p.n = 0)
    (hp2 : select_poll sc.be_resumed sc.files_resumed p.errno a.nfds (a.readfds.getD FD_ZERO)
      (a.writefds.getD FD_ZERO) (a.exceptfds.getD FD_ZERO) = some p2)
    (hn2 : p2.n = 0) :
    ∃ res, select be sc files errno q th a = some res ∧
      res.ret = -1 ∧ res.errno = EINTR ∧ res.scheduled = true ∧
      res.readfds = a.readfds ∧ res.writefds = a.writefds ∧ res.exceptfds = a.exceptfds ∧
      res.timeout = a.timeout := by
  unfold select
  simp only [hmain, Bool.not_true, Bool.false_eq_true, if_false, hp, hp2, htv]
  rw [if_neg (by simp [hn]), if_neg (by intro h; exact absurd h.2 (by simpa using hnot)),
    if_neg (by simp [hn2])]
  exact ⟨_, rfl, rfl, rfl, rfl, rfl, rfl, rfl, rfl⟩

/-- Witness of C8, amended: stdin polled for reading with a timeout of 100 ms
under a scheduler that lets nothing happen. -/
theorem select_sleep_then_nothing_ready_witness :
    sched_quiet.NOW_check < sched_quiet.NOW_start + SECONDS 0 + 100000 * 1000 ∧
    ∃ res, select backend_idle sched_quiet files_init 0 queues_empty thread_main
        select_stdin_100ms = some res ∧
      res.ret = -1 ∧ res.errno = EINTR ∧ res.scheduled = true ∧
      res.readfds = select_stdin_100ms.readfds ∧ res.writefds = select_stdin_100ms.writefds ∧
      res.exceptfds = select_stdin_100ms.exceptfds ∧
      res.timeout = select_stdin_100ms.timeout :=
  ⟨by decide,
    select_sleep_then_nothing_ready backend_idle sched_quiet files_init 0 queues_empty
      thread_main select_stdin_100ms { tv_sec := 0, tv_usec := 100000 }
      { n := 0, readfds := FD_CLR 0 (fun i => i == 0), writefds := FD_ZERO,
        exceptfds := FD_CLR 0 FD_ZERO, errno := 0 }
      { n := 0, readfds := FD_CLR 0 (fun i => i == 0), writefds := FD_ZERO,
        exceptfds := FD_CLR 0 FD_ZERO, errno := 0 }
      rfl rfl (by decide) rfl rfl rfl rfl⟩

/-- Counterexample to C8 as stated: stdin polled for reading with a timeout
of 100 ms that has not elapsed at call time, nothing ready before or after
the suspension and nothing happening meanwhile: `select` returns -1 with
`errno` equal to `EINTR`, not 0, and descriptor 0 is still a member of the
caller's read set. -/
theorem select_timeout_counterexample :
    sched_quiet.NOW_check < sched_quiet.NOW_start + SECONDS 0 + 100000 * 1000 ∧
    (select_poll backend_idle files_init 0 1 (fun i => i == 0) FD_ZERO FD_ZERO).map
      (fun p => p.n) = some 0 ∧
    (select backend_idle sched_quiet files_init 0 queues_empty thread_main
      select_stdin_100ms).map (fun res => (res.ret, res.errno, res.scheduled)) =
        some (-1, EINTR, true) ∧
    (select backend_idle sched_quiet files_init 0 queues_empty thread_main
      select_stdin_100ms).map (fun res => res.readfds.map (fun set => set 0)) =
        some (some true) := by
  decide

/-! ## Theorems: memory mapper -/

/-- The mask `PAGE_MASK` is `2 ^ bits - PAGE_SIZE`. -/
theorem PAGE_MASK_eq (bits : Nat) : PAGE_MASK bits = 2 ^ bits - (4095 + 1) := by
  unfold PAGE_MASK NOT PAGE_SIZE
  omega

/-- In a word of at least 12 bits, `~PAGE_MASK` is `PAGE_SIZE - 1`. -/
theorem NOT_PAGE_MASK (bits : Nat) (h : 12 ≤ bits) :
    NOT bits (PAGE_MASK bits) = PAGE_SIZE - 1 := by
  have hp : 2 ^ 12 ≤ 2 ^ bits := Nat.pow_le_pow_right (by decide) h
  unfold PAGE_MASK NOT PAGE_SIZE
  omega

/-- On a word of at least 12 bits, `x & PAGE_MASK` rounds `x` down to a
multiple of the page size. -/
theorem and_PAGE_MASK (bits x : Nat) (h : 12 ≤ bits) (hx : x < 2 ^ bits) :
    x &&& PAGE_MASK bits = x / PAGE_SIZE * PAGE_SIZE := by
  have hp : 2 ^ 12 ≤ 2 ^ bits := Nat.pow_le_pow_right (by decide) h
  have h4095 : (4095 : Nat) = 2 ^ 12 - 1 := by decide
  have hsz : PAGE_SIZE = 2 ^ 12 := by decide
  rw [PAGE_MASK_eq, hsz, Nat.mul_comm]
  apply Nat.eq_of_testBit_eq
  intro i
  rw [Nat.testBit_and, Nat.testBit_two_pow_sub_succ (by omega), Nat.testBit_mul_pow_two,
    h4095, Nat.testBit_two_pow_sub_one, ← Nat.shiftRight_eq_div_pow, Nat.testBit_shiftRight]
  by_cases h12 : i < 12
  · simp [h12, Nat.not_le_of_lt h12]
  · have hle : 12 ≤ i := Nat.le_of_not_lt h12
    have hadd : 12 + (i - 12) = i := by omega
    by_cases hw : i < bits
    · simp [h12, hle, hw, hadd]
    · have hbig : x < 2 ^ i := lt_of_lt_of_le hx (Nat.pow_le_pow_right (by decide) (by omega))
      simp [h12, hle, hw, hadd, Nat.testBit_lt_two_pow hbig]

/-- In a word of at least 12 bits, `x & ~PAGE_MASK` is the offset of `x` in its
page. -/
theorem and_NOT_PAGE_MASK (bits x : Nat) (h : 12 ≤ bits) :
    x &&& NOT bits (PAGE_MASK bits) = x % PAGE_SIZE := by
  rw [NOT_PAGE_MASK bits h]
  have hsz : PAGE_SIZE = 2 ^ 12 := by decide
  rw [hsz, Nat.and_pow_two_sub_one_eq_mod]

/-- C11, amended. On a machine word of `bits` bits (at least 12), for every
`length` with `length + PAGE_SIZE - 1 < 2 ^ bits`, that is, at most
`2 ^ bits - PAGE_SIZE`, passed to `mmap` with the supported argument
combination: the region size `(length + PAGE_SIZE - 1) & PAGE_MASK` equals
`ceil(length / PAGE_SIZE) * PAGE_SIZE`, it is the least multiple of the page
size that is at least `length`, and the number of pages requested from the
zero-page allocator is `ceil(length / PAGE_SIZE)`, the least number of pages
that hold `length` bytes. -/
theorem mmap_rounds_up (bits : Nat) (map_zero : Nat → Nat → Nat) (length prot flags : Nat)
    (hbits : 12 ≤ bits) (hlen : length + PAGE_SIZE - 1 < 2 ^ bits)
    (hprot : prot = PROT_READ ||| PROT_WRITE)
    (hflags : flags = MAP_SHARED ||| MAP_ANON ∨ flags = MAP_PRIVATE ||| MAP_ANON) :
    mmap_length bits length = (length + PAGE_SIZE - 1) / PAGE_SIZE * PAGE_SIZE ∧
    PAGE_SIZE ∣ mmap_length bits length ∧
    length ≤ mmap_length bits length ∧
    (∀ m : Nat, PAGE_SIZE ∣ m → length ≤ m → mmap_length bits length ≤ m) ∧
    (∀ k : Nat, length ≤ k * PAGE_SIZE → (length + PAGE_SIZE - 1) / PAGE_SIZE ≤ k) ∧
    mmap bits map_zero 0 length prot flags (-1) 0 =
      some (map_zero ((length + PAGE_SIZE - 1) / PAGE_SIZE) 1) := by
  have hlenval : mmap_length bits length = (length + PAGE_SIZE - 1) / PAGE_SIZE * PAGE_SIZE := by
    unfold mmap_length
    rw [Nat.mod_eq_of_lt hlen, and_PAGE_MASK bits _ hbits hlen]
  have hpos : 0 < PAGE_SIZE := by decide
  have hceil : ∀ k : Nat, length ≤ k * PAGE_SIZE → (length + PAGE_SIZE - 1) / PAGE_SIZE ≤ k := by
    intro k hk
    rw [Nat.div_le_iff_le_mul_add_pred hpos]
    rw [Nat.mul_comm] at hk
    omega
  refine ⟨hlenval, ?_, ?_, ?_, hceil, ?_⟩
  · rw [hlenval]; exact Nat.dvd_mul_left _ _
  · rw [hlenval]
    have := Nat.div_add_mod (length + PAGE_SIZE - 1) PAGE_SIZE
    have hm := Nat.mod_lt (length + PAGE_SIZE - 1) hpos
    rw [Nat.mul_comm] at this
    omega
  · intro m hdvd hle
    rw [hlenval]
    obtain ⟨k, rfl⟩ := hdvd
    have hk : (length + PAGE_SIZE - 1) / PAGE_SIZE ≤ k :=
      hceil k (by rw [Nat.mul_comm]; exact hle)
    calc (length + PAGE_SIZE - 1) / PAGE_SIZE * PAGE_SIZE
        ≤ k * PAGE_SIZE := Nat.mul_le_mul_right _ hk
      _ = PAGE_SIZE * k := Nat.mul_comm _ _
  · unfold mmap
    simp only [hlenval, hprot, ne_eq, not_true_eq_false, if_false, hflags, not_not]
    rw [Nat.mul_div_cancel _ hpos]

/-- Witness of C11, amended: a request of 5000 bytes on a 64-bit word is
rounded to 8192 bytes and asks for 2 pages. -/
theorem mmap_rounds_up_witness :
    5000 + PAGE_SIZE - 1 < 2 ^ 64 ∧
    mmap_length 64 5000 = 8192 ∧
    mmap 64 (fun n _ => n) 0 5000 (PROT_READ ||| PROT_WRITE) (MAP_PRIVATE ||| MAP_ANON) (-1) 0 =
      some ((5000 + PAGE_SIZE - 1) / PAGE_SIZE) :=
  ⟨by decide, by decide,
    (mmap_rounds_up 64 (fun n _ => n) 5000 (PROT_READ ||| PROT_WRITE)
      (MAP_PRIVATE ||| MAP_ANON) (by decide) (by decide) rfl (Or.inr rfl)).2.2.2.2.2⟩

/-- Counterexample to C11 as stated: on a 64-bit word the length `2 ^ 64 - 1`
makes `length + PAGE_SIZE - 1` wrap, the region size computed is 0, not
`ceil(length / PAGE_SIZE) * PAGE_SIZE = 2 ^ 64`, it is smaller than `length`,
and 0 pages are requested from the allocator. -/
theorem mmap_wraps_counterexample :
    mmap_length 64 (2 ^ 64 - 1) = 0 ∧
    (2 ^ 64 - 1 + PAGE_SIZE - 1) / PAGE_SIZE * PAGE_SIZE = 2 ^ 64 ∧
    ¬ (2 ^ 64 - 1 ≤ mmap_length 64 (2 ^ 64 - 1)) ∧
    mmap 64 (fun n _ => n) 0 (2 ^ 64 - 1) (PROT_READ ||| PROT_WRITE) (MAP_PRIVATE ||| MAP_ANON)
      (-1) 0 = some 0 := by
  decide

/-- The first loop of `munmap` builds `n` requests. -/
theorem munmap_calls_length (start : Nat) : ∀ n : Nat, (munmap_calls start n).length = n := by
  intro n
  induction n with
  | zero => rfl
  | succ n ih => simp [munmap_calls, ih]

/-- Request `i` of the batch is the invalidation of page `i` of the region. -/
theorem munmap_calls_get (start : Nat) :
    ∀ (n i : Nat), i < n → (munmap_calls start n)[i]? = some (munmap_call start i) := by
  intro n
  induction n with
  | zero => intro i hi; omega
  | succ n ih =>
    intro i hi
    unfold munmap_calls
    by_cases h : i < n
    · rw [List.getElem?_append_left (by rw [munmap_calls_length]; exact h)]
      exact ih i h
    · have hin : i = n := by omega
      subst hin
      rw [List.getElem?_append_right (by rw [munmap_calls_length])]
      simp [munmap_calls_length]

/-- The second loop of `munmap` runs to its end exactly when every result it
looks at is 0. -/
theorem munmap_check_none (result : Nat → Int) :
    ∀ (fuel i : Nat), munmap_check result fuel i = none ↔
      ∀ j, i ≤ j → j < i + fuel → result j = 0 := by
  intro fuel
  induction fuel with
  | zero =>
    intro i
    simp only [munmap_check, true_iff]
    intro j h1 h2
    omega
  | succ fuel ih =>
    intro i
    unfold munmap_check
    by_cases h : result i ≠ 0
    · rw [if_pos h]
      simp only [false_iff, reduceCtorEq]
      intro hall
      exact h (hall i (le_refl _) (by omega))
    · rw [if_neg h, ih (i + 1)]
      have h0 : result i = 0 := by simpa using h
      constructor
      · intro hall j h1 h2
        by_cases hj : j = i
        · rw [hj]; exact h0
        · exact hall j (by omega) (by omega)
      · intro hall j h1 h2
        exact hall j (by omega) (by omega)

/-- The second loop of `munmap` stops at the lowest-indexed non-zero result. -/
theorem munmap_check_some (result : Nat → Int) :
    ∀ (fuel i k : Nat), i ≤ k → k < i + fuel → result k ≠ 0 →
      (∀ j, i ≤ j → j < k → result j = 0) →
      munmap_check result fuel i = some (result k) := by
  intro fuel
  induction fuel with
  | zero => intro i k h1 h2; omega
  | succ fuel ih =>
    intro i k h1 h2 hk hlow
    unfold munmap_check
    by_cases hik : k = i
    · subst hik
      rw [if_pos hk]
    · have h0 : result i = 0 := hlow i (le_refl _) (by omega)
      rw [if_neg (by simp [h0])]
      exact ih (i + 1) k (by omega) (by omega) hk (fun j hj1 hj2 => hlow j (by omega) hj2)

/-- When the page count fits an `int`, `munmap` hands the batch of
`length / PAGE_SIZE` requests to the hypervisor and looks at that many
results. -/
theorem munmap_of_fits (bits : Nat)
    (HYPERVISOR_multicall : List multicall_entry → Int × (Nat → Int)) (errno : Int)
    (start length : Nat) (hbits : 12 ≤ bits)
    (hstart : start % PAGE_SIZE = 0) (hlength : length % PAGE_SIZE = 0)
    (hfits : length / PAGE_SIZE < 2147483648) :
    munmap bits HYPERVISOR_multicall errno start length =
      (if (HYPERVISOR_multicall (munmap_calls start (length / PAGE_SIZE))).1 ≠ 0 then
        some (-1, -(HYPERVISOR_multicall (munmap_calls start (length / PAGE_SIZE))).1)
      else
        match munmap_check (HYPERVISOR_multicall (munmap_calls start (length / PAGE_SIZE))).2
            (length / PAGE_SIZE) 0 with
        | some e => some (-1, e)
        | none => some (0, errno)) := by
  have hs : start &&& NOT bits (PAGE_MASK bits) = 0 := by
    rw [and_NOT_PAGE_MASK bits start hbits, hstart]
  have hl : length &&& NOT bits (PAGE_MASK bits) = 0 := by
    rw [and_NOT_PAGE_MASK bits length hbits, hlength]
  have h0 : (0 : Int) ≤ ((length / PAGE_SIZE : Nat) : Int) := Int.ofNat_nonneg _
  have h1 : ((length / PAGE_SIZE : Nat) : Int) < 2147483648 := by exact_mod_cast hfits
  have hn : to_int ((length / PAGE_SIZE : Nat) : Int) = ((length / PAGE_SIZE : Nat) : Int) :=
    to_int_of_fits _ (le_trans (by decide) h0) h1
  unfold munmap
  simp only [hn, Int.toNat_ofNat]
  rw [if_neg (not_lt.mpr h0), if_neg (by rw [hs]; exact fun h => h rfl),
    if_neg (by rw [hl]; exact fun h => h rfl)]

/-- C12, amended. For every page-aligned `start` and page-multiple `length`
whose page count `length / PAGE_SIZE` fits the `int n` it is stored in (is
below `2 ^ 31`), on a machine word of at least 12 bits, `munmap` builds
exactly `length / PAGE_SIZE` invalidation requests, request `i` targeting the
address `start + i * PAGE_SIZE`, and hands them to `HYPERVISOR_multicall` as
one batch; it returns 0 if and only if the batch call returns 0 and every
per-request result is 0; if the batch call returns `r ≠ 0` it returns -1 with
`errno = -r`; otherwise it returns -1 with `errno` equal to the result of the
lowest-indexed request whose result is non-zero. -/
theorem munmap_contract (bits : Nat)
    (HYPERVISOR_multicall : List multicall_entry → Int × (Nat → Int)) (errno : Int)
    (start length : Nat) (hbits : 12 ≤ bits)
    (hstart : start % PAGE_SIZE = 0) (hlength : length % PAGE_SIZE = 0)
    (hfits : length / PAGE_SIZE < 2147483648) :
    (munmap_calls start (length / PAGE_SIZE)).length = length / PAGE_SIZE ∧
    (∀ i : Nat, i < length / PAGE_SIZE →
      (munmap_calls start (length / PAGE_SIZE))[i]? =
        some { op := __HYPERVISOR_update_va_mapping,
               args := [start + i * PAGE_SIZE, 0, 0, UVMF_INVLPG ||| UVMF_ALL] }) ∧
    (munmap bits HYPERVISOR_multicall errno start length = some (0, errno) ↔
      (HYPERVISOR_multicall (munmap_calls start (length / PAGE_SIZE))).1 = 0 ∧
      ∀ i : Nat, i < length / PAGE_SIZE →
        (HYPERVISOR_multicall (munmap_calls start (length / PAGE_SIZE))).2 i = 0) ∧
    ((HYPERVISOR_multicall (munmap_calls start (length / PAGE_SIZE))).1 ≠ 0 →
      munmap bits HYPERVISOR_multicall errno start length =
        some (-1, -(HYPERVISOR_multicall (munmap_calls start (length / PAGE_SIZE))).1)) ∧
    ((HYPERVISOR_multicall (munmap_calls start (length / PAGE_SIZE))).1 = 0 →
      ∀ k : Nat, k < length / PAGE_SIZE →
        (HYPERVISOR_multicall (munmap_calls start (length / PAGE_SIZE))).2 k ≠ 0 →
        (∀ j : Nat, j < k →
          (HYPERVISOR_multicall (munmap_calls start (length / PAGE_SIZE))).2 j = 0) →
        munmap bits HYPERVISOR_multicall errno start length =
          some (-1, (HYPERVISOR_multicall (munmap_calls start (length / PAGE_SIZE))).2 k)) := by
  have hmun := munmap_of_fits bits HYPERVISOR_multicall errno start length hbits hstart
    hlength hfits
  generalize HYPERVISOR_multicall (munmap_calls start (length / PAGE_SIZE)) = r at hmun ⊢
  refine ⟨munmap_calls_length start _, fun i hi => munmap_calls_get start _ i hi, ?_, ?_, ?_⟩
  · rw [hmun]
    by_cases hr : r.1 ≠ 0
    · rw [if_pos hr]
      constructor
      · intro h
        simp at h
      · intro h
        exact absurd h.1 hr
    · rw [if_neg hr]
      have hr0 : r.1 = 0 := by simpa using hr
      cases hc : munmap_check r.2 (length / PAGE_SIZE) 0 with
      | none =>
        simp only [true_iff]
        refine ⟨hr0, fun i hi => ?_⟩
        exact (munmap_check_none r.2 _ 0).mp hc i (Nat.zero_le _) (by omega)
      | some e =>
        constructor
        · intro h
          simp at h
        · intro h
          have := (munmap_check_none r.2 (length / PAGE_SIZE) 0).mpr
            (fun j _ hj => h.2 j (by omega))
          rw [hc] at this
          simp at this
  · intro hr
    rw [hmun, if_pos hr]
  · intro hr k hk hne hlow
    rw [hmun, if_neg (by simp [hr]),
      munmap_check_some r.2 (length / PAGE_SIZE) 0 k (Nat.zero_le _) (by omega) hne
        (fun j _ hj => hlow j hj)]

/-- Witness of C12, amended: two pages at address 8192 unmapped under a
hypervisor that carries out every request: `munmap` returns 0. -/
theorem munmap_contract_witness :
    8192 % PAGE_SIZE = 0 ∧ 8192 / PAGE_SIZE < 2147483648 ∧
    munmap 64 multicall_ok 0 8192 8192 = some (0, 0) :=
  ⟨by decide, by decide,
    (munmap_contract 64 multicall_ok 0 8192 8192 (by decide) (by decide) (by decide)
      (by decide)).2.2.1.mpr ⟨rfl, fun _ _ => rfl⟩⟩

/-- Counterexample to C12 as stated: on a 64-bit word, for the page-aligned
start 8192 and the page-multiple length `2 ^ 44 + 4096`, the page count
`length / PAGE_SIZE = 4294967297` stored in `int n` becomes 1, so `munmap`
builds and submits 1 request, not 4294967297. Under the hypervisor whose batch
call returns the number of requests it was handed, the batch of
`length / PAGE_SIZE` requests would be answered `r = 4294967297`, yet `munmap`
returns -1 with `errno = -1`, not `errno = -r`. -/
theorem munmap_int_count_counterexample :
    8192 % PAGE_SIZE = 0 ∧ (2 ^ 44 + 4096) % PAGE_SIZE = 0 ∧
    (2 ^ 44 + 4096) / PAGE_SIZE = 4294967297 ∧
    to_int (((2 ^ 44 + 4096) / PAGE_SIZE : Nat) : Int) = 1 ∧
    munmap 64 multicall_count 0 8192 (2 ^ 44 + 4096) = some (-1, -1) ∧
    (multicall_count (munmap_calls 8192 1)).1 = 1 ∧
    (multicall_count (munmap_calls 8192 ((2 ^ 44 + 4096) / PAGE_SIZE))).1 = 4294967297 ∧
    munmap 64 multicall_count 0 8192 (2 ^ 44 + 4096) ≠
      some (-1, -(multicall_count (munmap_calls 8192 ((2 ^ 44 + 4096) / PAGE_SIZE))).1) := by
  have hlen :
      (multicall_count (munmap_calls 8192 ((2 ^ 44 + 4096) / PAGE_SIZE))).1 = 4294967297 := by
    show ((munmap_calls 8192 ((2 ^ 44 + 4096) / PAGE_SIZE)).length : Int) = 4294967297
    rw [munmap_calls_length]
    decide
  have hmun : munmap 64 multicall_count 0 8192 (2 ^ 44 + 4096) = some (-1, -1) := by decide
  refine ⟨by decide, by decide, by decide, by decide, hmun, by decide, hlen, ?_⟩
  rw [hlen, hmun]
  decide

/-! ## Theorems: clock -/

/-- What `clock_gettime` does for each clock kind: under `CLOCK_REALTIME` it
reports the monotonic counter, under `CLOCK_MONOTONIC` the calendar time, and
for every other kind it returns -1 with `errno` set to `EINVAL` and leaves
`*tp` alone. -/
theorem clock_gettime_cases (c : Clocks) (errno : Int) (tp : timespec) :
    clock_gettime c errno CLOCK_REALTIME tp =
      (0, errno, { tv_sec := ((c.monotonic_clock / 1000000000 : Nat) : Int),
                   tv_nsec := ((c.monotonic_clock % 1000000000 : Nat) : Int) }) ∧
    clock_gettime c errno CLOCK_MONOTONIC tp =
      (0, errno, { tv_sec := c.gettimeofday.tv_sec,
                   tv_nsec := c.gettimeofday.tv_usec * 1000 }) ∧
    (∀ clk_id : Int, clk_id ≠ CLOCK_REALTIME → clk_id ≠ CLOCK_MONOTONIC →
      clock_gettime c errno clk_id tp = (-1, EINVAL, tp)) := by
  refine ⟨?_, ?_, ?_⟩
  · unfold clock_gettime
    rw [if_neg (by decide), if_pos rfl]
  · unfold clock_gettime
    rw [if_pos rfl]
  · intro clk_id h1 h2
    unfold clock_gettime
    rw [if_neg h2, if_neg h1]

/-- C13, the code at the failing input. With the calendar time at 1000 s and
5 µs and the monotonic counter at 3000000007 ns, `clock_gettime` with
`CLOCK_REALTIME` returns 0 and reports 3 s and 7 ns, the monotonic counter,
not the calendar reading 1000 s and 5000 ns; with `CLOCK_MONOTONIC` it
reports the calendar reading, not the counter. The other kinds are refused
with `EINVAL`, as the claim says. -/
theorem clock_gettime_kinds_swapped :
    clock_gettime clocks_example 0 CLOCK_REALTIME { tv_sec := 0, tv_nsec := 0 } =
      (0, 0, { tv_sec := 3, tv_nsec := 7 }) ∧
    clock_gettime clocks_example 0 CLOCK_MONOTONIC { tv_sec := 0, tv_nsec := 0 } =
      (0, 0, { tv_sec := 1000, tv_nsec := 5000 }) ∧
    clock_gettime clocks_example 0 0 { tv_sec := 0, tv_nsec := 0 } =
      (-1, EINVAL, { tv_sec := 0, tv_nsec := 0 }) := by
  decide

/-! ## Theorems: duplication onto itself -/

/-- C15. For every descriptor `fd` whose slot holds a console, plain-file,
socket, network-tap, block-device or keyboard-device resource, `dup2(fd, fd)`
returns 0 and leaves slot `fd` empty: duplicating a descriptor onto itself
closes it and does not preserve it. -/
theorem dup2_self_closes (be : Backend) (s : State) (fd : Fin NOFILE)
    (h : (s.files fd).type = FTYPE_CONSOLE ∨ (s.files fd).type = FTYPE_FILE ∨
      (s.files fd).type = FTYPE_SOCKET ∨ (s.files fd).type = FTYPE_TAP ∨
      (s.files fd).type = FTYPE_BLK ∨ (s.files fd).type = FTYPE_KBD) :
    (dup2 be s fd fd).1 = 0 ∧ ((dup2 be s fd fd).2.files fd).type = FTYPE_NONE := by
  have hne : (s.files fd).type ≠ FTYPE_NONE := by
    rcases h with h | h | h | h | h | h <;> rw [h] <;> decide
  unfold dup2
  refine ⟨rfl, ?_⟩
  simp only [if_pos hne, Function.update_same]
  exact close_type be s fd hne

/-- Witness of C15: the plain file in slot 3 duplicated onto itself. -/
theorem dup2_self_closes_witness :
    ((state_with FTYPE_FILE).files fd3).type = FTYPE_FILE ∧
    (dup2 backend_idle (state_with FTYPE_FILE) fd3 fd3).1 = 0 ∧
    ((dup2 backend_idle (state_with FTYPE_FILE) fd3 fd3).2.files fd3).type = FTYPE_NONE :=
  ⟨by decide,
    dup2_self_closes backend_idle (state_with FTYPE_FILE) fd3 (Or.inr (Or.inl (by decide)))⟩

end MiniOS
